import Mathlib

/-!
Verification of the Perses panel CSV-export subsystem.

The development shallowly embeds the TypeScript/JavaScript code of the
panel action/export module: the query-result shape classifiers
(`detectDataType`, the `extractDataForExport` probes, and the stashed-variant
type guards), the per-shape CSV serializers (`exportTimeSeriesData`,
`exportTableData`, `exportBarChartData`, `exportGenericData` in both the main
and the stashed variant), the CSV export handlers, and the query state
indicator of the upstream `PanelActions` variant.

JavaScript values are modelled by the inductive type `Value` (numbers are
modelled as integers; every numeric literal appearing in the code and in the
claims is an integer).  Property access that can raise a `TypeError` in
JavaScript (access on `null`/`undefined`) is modelled by `Option`, with `none`
standing for a thrown exception; the same convention is used for every
function that can throw.  JavaScript truthiness, `||`, `??`, string coercion
of template literals and of `Array.prototype.join`, and `new Date(...)`
/ `toISOString` are modelled explicitly below.
-/

set_option maxRecDepth 10000

/-- Model of a JavaScript value.  Numbers are modelled as integers (all
numbers appearing in the embedded code paths and in the concrete inputs of
the claims are integers). -/
inductive Value where
  | null : Value
  | undefined : Value
  | bool : Bool → Value
  | num : Int → Value
  | str : String → Value
  | arr : List Value → Value
  | obj : List (String × Value) → Value

/-- JavaScript truthiness: `null`, `undefined`, `false`, `0` and `""` are
falsy; every object and array (including `[]` and `{}`) is truthy. -/
def truthy : Value → Bool
  | .null => false
  | .undefined => false
  | .bool b => b
  | .num n => n != 0
  | .str s => s ≠ ""
  | .arr _ => true
  | .obj _ => true

/-- Whether a value is `null` or `undefined` (the values rejected by `??` and
the values on which property access throws a `TypeError`). -/
def Value.isNullish : Value → Bool
  | .null => true
  | .undefined => true
  | _ => false

/-- Whether the value is an array (`Array.isArray`). -/
def Value.isArr : Value → Bool
  | .arr _ => true
  | _ => false

/-- Whether `typeof v === 'object'` holds (objects, arrays and `null`). -/
def Value.isObjType : Value → Bool
  | .obj _ => true
  | .arr _ => true
  | .null => true
  | _ => false

/-- Whether the value is an object or an array, i.e. truthy and of type
`'object'` (the combination `data && typeof data === 'object'`). -/
def Value.isObjLike : Value → Bool
  | .obj _ => true
  | .arr _ => true
  | _ => false

/-- Whether the value is a string. -/
def Value.isStr : Value → Bool
  | .str _ => true
  | _ => false

/-- Whether the value is a number. -/
def Value.isNum : Value → Bool
  | .num _ => true
  | _ => false

/-- Whether the value is exactly `undefined`. -/
def Value.isUndefined : Value → Bool
  | .undefined => true
  | _ => false

/-- Elements of an array value (the empty list for non-arrays). -/
def Value.asList : Value → List Value
  | .arr xs => xs
  | _ => []

/-- Length of an array value, `0` for non-arrays. -/
def Value.arrLen : Value → Nat
  | .arr xs => xs.length
  | _ => 0

mutual

/-- JavaScript `ToString` as used by template literals and `String(x)`:
`null` ↦ `"null"`, `undefined` ↦ `"undefined"`, booleans and numbers print
as usual, arrays join their elements with `","` (with nullish elements
printing as the empty string, as `Array.prototype.join` does), and plain
objects print as `"[object Object]"`. -/
def displayString : Value → String
  | .null => "null"
  | .undefined => "undefined"
  | .bool b => cond b "true" "false"
  | .num n => toString n
  | .str s => s
  | .arr xs => dispJoin xs
  | .obj _ => "[object Object]"

/-- Comma-join of a list of values as `Array.prototype.join(',')` does. -/
def dispJoin : List Value → String
  | [] => ""
  | [x] => dispElem x
  | x :: y :: xs => dispElem x ++ "," ++ dispJoin (y :: xs)

/-- Stringification of one join element: nullish elements become `""`. -/
def dispElem : Value → String
  | .null => ""
  | .undefined => ""
  | .bool b => cond b "true" "false"
  | .num n => toString n
  | .str s => s
  | .arr xs => dispJoin xs
  | .obj _ => "[object Object]"

end

mutual

/-- Structural equality of values.  It models JavaScript `===` /
`SameValueZero` faithfully on primitives; for objects and arrays (compared by
reference in JavaScript) structural equality is used as an approximation —
the embedded code only ever compares a value with itself or with primitives
on these paths. -/
def Value.beq : Value → Value → Bool
  | .null, .null => true
  | .undefined, .undefined => true
  | .bool a, .bool b => a == b
  | .num a, .num b => a == b
  | .str a, .str b => a == b
  | .arr a, .arr b => beqL a b
  | .obj a, .obj b => beqF a b
  | _, _ => false

/-- Elementwise equality of value lists. -/
def beqL : List Value → List Value → Bool
  | [], [] => true
  | a :: as', b :: bs' => Value.beq a b && beqL as' bs'
  | _, _ => false

/-- Elementwise equality of object field lists. -/
def beqF : List (String × Value) → List (String × Value) → Bool
  | [], [] => true
  | (ka, va) :: as', (kb, vb) :: bs' => ka == kb && Value.beq va vb && beqF as' bs'
  | _, _ => false

end

/-- Property key coercion (`ToPropertyKey`): a computed key such as
`row[col.name]` is converted to a string. -/
def jsPropKey (v : Value) : String := displayString v

/-- Digits-only parse of a property key: the canonical array-index check of
JavaScript property lookup.  (A direct recursion over the characters, so
that concrete lookups evaluate inside the kernel.) -/
def strToNatCanon (k : String) : Option Nat :=
  if k.data ≠ [] && k.data.all Char.isDigit then
    some (k.data.foldl (fun a c => a * 10 + (c.toNat - 48)) 0)
  else none

/-- Total property access, to be used only where the receiver is known to be
non-nullish (JavaScript would throw there; see `Value.getE`).  Objects look
up their first matching field, arrays support canonical numeric indices and
`length`, strings support numeric indices and `length`, and every other
access yields `undefined`. -/
def Value.getD (v : Value) (k : String) : Value :=
  match v with
  | .obj fields =>
      match fields.find? (fun kv => kv.1 == k) with
      | some kv => kv.2
      | none => .undefined
  | .arr xs =>
      if k == "length" then .num xs.length
      else
        match strToNatCanon k with
        | some i => if toString i == k then (xs.getD i .undefined) else .undefined
        | none => .undefined
  | .str s =>
      if k == "length" then .num s.length
      else
        match strToNatCanon k with
        | some i =>
            if toString i == k then
              match s.data.get? i with
              | some c => .str (String.mk [c])
              | none => .undefined
            else .undefined
        | none => .undefined
  | _ => .undefined

/-- Property access as JavaScript performs it: accessing a property of
`null` or `undefined` throws a `TypeError`, modelled by `none`. -/
def Value.getE (v : Value) (k : String) : Option Value :=
  if v.isNullish then none else some (v.getD k)

/-- Index access `v[i]` with the same throwing behaviour as `Value.getE`. -/
def Value.getIdxE (v : Value) (i : Nat) : Option Value :=
  match v with
  | .null => none
  | .undefined => none
  | .arr xs => some (xs.getD i .undefined)
  | .str s =>
      match s.data.get? i with
      | some c => some (.str (String.mk [c]))
      | none => some .undefined
  | _ => some .undefined

/-- Whether the `in` operator finds the key: only meaningful on objects and
arrays (the embedded code always guards with `typeof x === 'object'`). -/
def Value.hasKey (v : Value) (k : String) : Bool :=
  match v with
  | .obj fields => fields.any (fun kv => kv.1 == k)
  | .arr xs =>
      k == "length" ||
        (match strToNatCanon k with
         | some i => toString i == k && i < xs.length
         | none => false)
  | _ => false

/-- JavaScript `a || b`: `a` when truthy, otherwise `b`. -/
def jsOr (a b : Value) : Value := if truthy a then a else b

/-- Elements produced by a `for (const x of v)` loop: arrays yield their
elements, strings their characters; every other value is not iterable and
the loop throws a `TypeError` (`none`). -/
def jsIterate : Value → Option (List Value)
  | .arr xs => some xs
  | .str s => some (s.data.map (fun c => .str (String.mk [c])))
  | _ => none

/-- The array receiver required by `Array.prototype.map` / `join`: calling
them on a non-array throws (`none`). -/
def Value.asArrE : Value → Option (List Value)
  | .arr xs => some xs
  | _ => none

/-- Keys of primitive values for `Object.keys` (empty except for strings,
which expose their character indices). -/
def jsKeysPrim : Value → List String
  | .str s => (List.range s.length).map toString
  | _ => []

/-- Result of `Object.keys(v)`: field names for objects, index strings for
arrays; `Object.keys(null)` throws. -/
def jsKeysE : Value → Option (List String)
  | .obj fields => some (fields.map (fun kv => kv.1))
  | .arr xs => some ((List.range xs.length).map toString)
  | .null => none
  | .undefined => none
  | v => some (jsKeysPrim v)

/-- Worker for `dedupFS`, carrying the values seen so far. -/
def dedupFSAux : List Value → List Value → List Value
  | [], _ => []
  | x :: xs, seen =>
      if seen.any (Value.beq x) then dedupFSAux xs seen
      else x :: dedupFSAux xs (x :: seen)

/-- First-seen deduplication, as `Array.from(new Set(xs))` produces. -/
def dedupFS (l : List Value) : List Value := dedupFSAux l []

/-- Civil date from a day count relative to 1970-01-01 (proleptic Gregorian
calendar, the standard era-based algorithm): returns `(year, month, day)`. -/
def civilFromDays (z : Int) : Int × Nat × Nat :=
  let z' := z + 719468
  let era := z'.fdiv 146097
  let doe := (z' - era * 146097).toNat
  let yoe := (doe - doe / 1460 + doe / 36524 - doe / 146096) / 365
  let doy := doe - (365 * yoe + yoe / 4 - yoe / 100)
  let mp := (5 * doy + 2) / 153
  let d := doy - (153 * mp + 2) / 5 + 1
  let m := if mp < 10 then mp + 3 else mp - 9
  let y : Int := (yoe : Int) + era * 400 + (if m ≤ 2 then 1 else 0)
  (y, m, d)

/-- Day count relative to 1970-01-01 of a civil date (inverse of
`civilFromDays`). -/
def daysFromCivil (y : Int) (m d : Nat) : Int :=
  let y' := if m ≤ 2 then y - 1 else y
  let era := y'.fdiv 400
  let yoe := (y' - era * 400).toNat
  let mp := if m > 2 then m - 3 else m + 9
  let doy := (153 * mp + 2) / 5 + d - 1
  let doe := yoe * 365 + yoe / 4 - yoe / 100 + doy
  era * 146097 + (doe : Int) - 719468

/-- Zero-pad a natural number to at least `w` digits. -/
def padNat (w : Nat) (n : Nat) : String :=
  let s := toString n
  let l := s.length
  (String.mk (List.replicate (w - l) '0')) ++ s

/-- Year field of an ISO-8601 string as `toISOString` formats it: four
digits for years 0–9999, otherwise the expanded `±YYYYYY` form. -/
def isoYear (y : Int) : String :=
  if y < 0 then "-" ++ padNat 6 ((-y).toNat)
  else if y > 9999 then "+" ++ padNat 6 y.toNat
  else padNat 4 y.toNat

/-- ISO-8601 rendering of a millisecond timestamp, exactly as
`Date.prototype.toISOString` formats it (UTC, milliseconds, `Z` suffix). -/
def isoStringOfMs (ms : Int) : String :=
  let days := ms.fdiv 86400000
  let msOfDay := (ms - days * 86400000).toNat
  let c := civilFromDays days
  let hh := msOfDay / 3600000
  let mi := msOfDay / 60000 % 60
  let ss := msOfDay / 1000 % 60
  let mss := msOfDay % 1000
  isoYear c.1 ++ "-" ++ padNat 2 c.2.1 ++ "-" ++ padNat 2 c.2.2 ++ "T" ++
    padNat 2 hh ++ ":" ++ padNat 2 mi ++ ":" ++ padNat 2 ss ++ "." ++
    padNat 3 mss ++ "Z"

/-- Model of `new Date(ms).toISOString()` for a numeric argument: defined
for timestamps within the ECMAScript time range (at most `8.64e15`
milliseconds from the epoch in magnitude); outside it the date is invalid
and `toISOString` throws a `RangeError` (`none`). -/
def dateToISO (ms : Int) : Option String :=
  if ms.natAbs ≤ 8640000000000000 then some (isoStringOfMs ms) else none

/-- Read exactly `n` digits starting at the front of the list, returning the
value and the rest. -/
def readDigits : Nat → List Char → Option (Nat × List Char)
  | 0, cs => some (0, cs)
  | n + 1, c :: cs =>
      if c.isDigit then
        match readDigits n cs with
        | some (v, rest) => some ((c.toNat - 48) * 10 ^ n + v, rest)
        | none => none
      else none
  | _ + 1, [] => none

/-- Expect a literal character at the front of the list. -/
def expectChar (c : Char) : List Char → Option (List Char)
  | c' :: cs => if c' == c then some cs else none
  | [] => none

/-- Number of days in a month of the Gregorian calendar. -/
def daysInMonth (y : Int) (m : Nat) : Nat :=
  if m == 2 then
    if y % 4 == 0 && (y % 100 != 0 || y % 400 == 0) then 29 else 28
  else if m == 4 || m == 6 || m == 9 || m == 11 then 30
  else 31

/-- Modelled from the ECMAScript date parser (`new Date(string)`), restricted
to the complete date-time form `YYYY-MM-DDTHH:mm:ss.sssZ` that
`toISOString` emits; every other string is treated as an invalid date
(`none`), which makes a subsequent `toISOString` call throw.  Field ranges
are validated as the specification requires. -/
def parseDate (s : String) : Option Int :=
  match readDigits 4 s.data with
  | none => none
  | some (y, r1) =>
    match expectChar '-' r1 with
    | none => none
    | some r2 =>
      match readDigits 2 r2 with
      | none => none
      | some (mo, r3) =>
        match expectChar '-' r3 with
        | none => none
        | some r4 =>
          match readDigits 2 r4 with
          | none => none
          | some (d, r5) =>
            match expectChar 'T' r5 with
            | none => none
            | some r6 =>
              match readDigits 2 r6 with
              | none => none
              | some (hh, r7) =>
                match expectChar ':' r7 with
                | none => none
                | some r8 =>
                  match readDigits 2 r8 with
                  | none => none
                  | some (mi, r9) =>
                    match expectChar ':' r9 with
                    | none => none
                    | some r10 =>
                      match readDigits 2 r10 with
                      | none => none
                      | some (ss, r11) =>
                        match expectChar '.' r11 with
                        | none => none
                        | some r12 =>
                          match readDigits 3 r12 with
                          | none => none
                          | some (ms, r13) =>
                            match expectChar 'Z' r13 with
                            | none => none
                            | some r14 =>
                              if r14 == [] && 1 ≤ mo && mo ≤ 12 &&
                                  1 ≤ d && d ≤ daysInMonth y mo &&
                                  hh ≤ 23 && mi ≤ 59 && ss ≤ 59 then
                                some (daysFromCivil y mo d * 86400000 +
                                  (hh * 3600000 + mi * 60000 + ss * 1000 + ms : Nat))
                              else none

/-- Model of `new Date(x).toISOString()` for an arbitrary argument,
following the ECMAScript `Date` constructor coercions: numbers are taken as
milliseconds, strings are parsed (see `parseDate`), `null` and booleans
coerce to `0`/`1`, `undefined` gives an invalid date, and objects and
arrays are coerced to a string first.  `none` models the thrown
`RangeError` on an invalid date. -/
def newDateToISO : Value → Option String
  | .num n => dateToISO n
  | .str s => (parseDate s).bind dateToISO
  | .null => dateToISO 0
  | .bool b => dateToISO (cond b 1 0)
  | .undefined => none
  | .arr xs => (parseDate (displayString (.arr xs))).bind dateToISO
  | .obj _ => none

/-- Lexicographic code-unit comparison of character lists, the comparison
that the default `Array.prototype.sort` comparator applies to strings. -/
def charListLe : List Char → List Char → Bool
  | [], _ => true
  | _ :: _, [] => false
  | a :: as', b :: bs' =>
      if a.toNat < b.toNat then true
      else if b.toNat < a.toNat then false
      else charListLe as' bs'

/-- Lexicographic string comparison (code units). -/
def strLeB (a b : String) : Bool := charListLe a.data b.data

/-- Insertion into a string list sorted in nondecreasing order. -/
def insertStr (x : String) : List String → List String
  | [] => [x]
  | y :: ys => if strLeB x y then x :: y :: ys else y :: insertStr x ys

/-- Insertion sort on strings, the model of `Object.keys(result).sort()`
(default lexicographic string comparison). -/
def sortStr : List String → List String
  | [] => []
  | x :: xs => insertStr x (sortStr xs)

/-- Double every double-quote, the model of `s.replace(/"/g, '""')`. -/
def escQuotes : List Char → List Char
  | [] => []
  | c :: cs => if c == '"' then '"' :: '"' :: escQuotes cs else c :: escQuotes cs

/-- String-level quote doubling. -/
def escQuotesStr (s : String) : String := String.mk (escQuotes s.data)

/-- Wrap a cell in double quotes after doubling its quotes, i.e. the
template `"${s.replace(/"/g, '""')}"`. -/
def quoteWrap (s : String) : String := "\"" ++ escQuotesStr s ++ "\""

/-- Undo `escQuotes`: collapse every doubled double-quote. -/
def unescQuotes : List Char → List Char
  | [] => []
  | [c] => [c]
  | c :: d :: cs =>
      if c == '"' && d == '"' then '"' :: unescQuotes cs
      else c :: unescQuotes (d :: cs)

/-- Modelled from the spec: a standard (RFC 4180) CSV reader's treatment of
one emitted cell — a cell that starts and ends with a double quote is
unwrapped and its doubled quotes collapsed, any other cell is read
verbatim. -/
def csvUnescapeCell (c : String) : String :=
  match c.data with
  | '"' :: rest =>
      if rest ≠ [] && rest.getLast? == some '"' then
        String.mk (unescQuotes rest.dropLast)
      else c
  | _ => c

/-- Whether a string contains a character (`String.prototype.includes` with
a one-character needle), stated over the character list so that concrete
instances evaluate inside the kernel. -/
def strContains (s : String) (c : Char) : Bool := s.data.contains c

/-- Whether a cell string needs CSV quoting: it contains a comma, a double
quote or a newline (`cellStr.includes(',') || cellStr.includes('"') ||
cellStr.includes('\n')`). -/
def needsCsvQuote (s : String) : Bool :=
  strContains s ',' || strContains s '"' || strContains s '\n'

/-- The shared cell-escaping expression of the stashed `exportTableData` and
of `exportGenericData`: quote-wrap exactly the cells that contain a comma, a
double quote or a newline. -/
def escapeCellJs (s : String) : String :=
  if needsCsvQuote s then quoteWrap s else s

/-- Elements visited by an index-based `for (let i = 0; i < v.length; i++)`
loop: array elements, or the characters of a string; any other value has an
`undefined` `length`, so the loop body never runs.  (An ordinary object
carrying its own numeric `length` property is not modelled; the embedded
code never reaches such a value on these paths.) -/
def jsIndexElems : Value → List Value
  | .arr xs => xs
  | .str s => s.data.map (fun c => .str (String.mk [c]))
  | _ => []

/-- Shape tags of the enhanced `PanelActions` variant (`detectDataType`). -/
inductive DataType where
  | timeseries
  | table
  | barchart
  | unknown
deriving DecidableEq

/-- String form of a shape tag as it appears in the code. -/
def typeName : DataType → String
  | .timeseries => "timeseries"
  | .table => "table"
  | .barchart => "barchart"
  | .unknown => "unknown"

/-- The table and bar-chart probes of `detectDataType`, run after the
time-series probe has failed: `columns`/`rows` both truthy arrays give
`'table'`; truthy array `categories` and `series` whose first element is
truthy with a truthy array `data` give `'barchart'`; otherwise
`'unknown'`. -/
def detectAfterTs (data : Value) : DataType :=
  if truthy (data.getD "columns") && (data.getD "columns").isArr &&
      truthy (data.getD "rows") && (data.getD "rows").isArr then .table
  else if truthy (data.getD "categories") && (data.getD "categories").isArr &&
      truthy (data.getD "series") && (data.getD "series").isArr then
    match data.getD "series" with
    | .arr (first :: _) =>
        if truthy first && truthy (first.getD "data") && (first.getD "data").isArr then
          .barchart
        else .unknown
    | _ => .unknown
  else .unknown

/-- `detectDataType` of the enhanced `PanelActions` variant.  A falsy
payload is `'unknown'`.  The time-series probe requires `series` to be a
truthy, non-empty array and reads `series[0].values`; that property access
throws when the first element is nullish (`none`).  When the time-series
probe does not fire, the table and bar-chart probes run (`detectAfterTs`). -/
def detectDataType (data : Value) : Option DataType :=
  if !truthy data then some .unknown
  else
    let series := data.getD "series"
    if truthy series && series.isArr && 0 < series.arrLen then
      match series with
      | .arr (first :: _) =>
          (first.getE "values").map (fun v =>
            if truthy v && v.isArr then DataType.timeseries else detectAfterTs data)
      | _ => some (detectAfterTs data)
    else some (detectAfterTs data)

/-- `hasExportableData`: the detected type is not `'unknown'`. -/
def hasExportableData (data : Value) : Option Bool :=
  (detectDataType data).map (fun t => decide (t ≠ DataType.unknown))

/-- Whether the `csvExportButton` memo of the enhanced `PanelActions`
renders the export button (it returns `null` exactly when
`hasExportableData` is false). -/
def csvExportButtonRendered (queryResults : Value) : Option Bool :=
  hasExportableData queryResults

/-- Result of `getSeriesLegendName`: the resolved legend display name and
the synthetic column name. -/
structure SeriesInfo where
  legendName : Value
  columnName : String

/-- `getSeriesLegendName` of the enhanced variant: the legend name is the
first truthy value of `formattedName`, `legendName`, `displayName`,
`legend`, `name`, with the string `"Series {i+1}"` as fallback; the column
name is always `"Series_{i+1}"`. -/
def getSeriesLegendName (series : Value) (seriesIndex : Nat) : SeriesInfo :=
  { legendName :=
      jsOr (series.getD "formattedName")
        (jsOr (series.getD "legendName")
          (jsOr (series.getD "displayName")
            (jsOr (series.getD "legend")
              (jsOr (series.getD "name")
                (.str ("Series " ++ toString (seriesIndex + 1))))))),
    columnName := "Series_" ++ toString (seriesIndex + 1) }

/-- One row of the `result` record: series column name to value. -/
abbrev RowMap := List (String × Value)

/-- The `result` record of the time-series exporters: ISO timestamp to row,
in insertion order (JavaScript object key order for such keys). -/
abbrev ResultMap := List (String × RowMap)

/-- Assignment `row[key] = v`: overwrite in place or append. -/
def setField : RowMap → String → Value → RowMap
  | [], k, v => [(k, v)]
  | (k', v') :: rest, k, v =>
      if k' == k then (k, v) :: rest else (k', v') :: setField rest k v

/-- Assignment `result[dateTime][col] = v` (creating the inner record when
absent, as `if (!result[dateTime]) result[dateTime] = {}` does). -/
def resultInsert : ResultMap → String → String → Value → ResultMap
  | [], dt, col, v => [(dt, [(col, v)])]
  | (dt', row) :: rest, dt, col, v =>
      if dt' == dt then (dt, setField row col v) :: rest
      else (dt', row) :: resultInsert rest dt col v

/-- Lookup of `row[key]`. -/
def rowLookup : RowMap → String → Option Value
  | [], _ => none
  | (k, v) :: rest, key => if k == key then some v else rowLookup rest key

/-- Lookup of `result[dateTime]`. -/
def resultLookup : ResultMap → String → Option RowMap
  | [], _ => none
  | (dt, row) :: rest, key => if dt == key then some row else resultLookup rest key

/-- Outcome of converting one entry's timestamp in the enhanced
`exportTimeSeriesData`. -/
inductive TsConv where
  | skipped
  | converted (dt : String)
  | thrown
deriving DecidableEq

/-- Timestamp conversion of the enhanced `exportTimeSeriesData`: a number
greater than `1e10` is taken as milliseconds, a smaller number is multiplied
by `1000`, a string is parsed as a date; any other timestamp is skipped
(`continue`).  An out-of-range or unparseable date throws. -/
def convertTimestamp : Value → TsConv
  | .num t =>
      let ms := if t > 10000000000 then t else t * 1000
      match dateToISO ms with
      | some dt => .converted dt
      | none => .thrown
  | .str s =>
      match (parseDate s).bind dateToISO with
      | some dt => .converted dt
      | none => .thrown
  | _ => .skipped

namespace Main

/-- Inner loop of the enhanced `exportTimeSeriesData` over `series.values`:
entries that are not arrays or have fewer than two elements are skipped;
otherwise the timestamp is converted and the value stored under the series
column name; a throwing conversion aborts the whole export. -/
def processEntries (columnName : String) : List Value → ResultMap → Option ResultMap
  | [], result => some result
  | e :: rest, result =>
      match e with
      | .arr es =>
          if es.length < 2 then processEntries columnName rest result
          else
            match convertTimestamp (es.getD 0 .undefined) with
            | .skipped => processEntries columnName rest result
            | .thrown => none
            | .converted dt =>
                processEntries columnName rest
                  (resultInsert result dt columnName (es.getD 1 .undefined))
      | _ => processEntries columnName rest result

/-- Outer loop of the enhanced `exportTimeSeriesData` over `data.series`
(`i` is the running index): a falsy series or one whose `values` is not an
array is skipped; otherwise its `SeriesInfo` is recorded and its entries
are processed. -/
def processSeries : List Value → Nat → List SeriesInfo → ResultMap →
    Option (List SeriesInfo × ResultMap)
  | [], _, infos, result => some (infos, result)
  | s :: rest, i, infos, result =>
      if !truthy s || !(s.getD "values").isArr then
        processSeries rest (i + 1) infos result
      else
        match processEntries (getSeriesLegendName s i).columnName
            (s.getD "values").asList result with
        | none => none
        | some result' =>
            processSeries rest (i + 1) (infos ++ [getSeriesLegendName s i]) result'

/-- One cell of a data row: `rowData?.[columnName] ?? ''`, stringified by
`temp.join(',')`. -/
def tsCell (rowData : Option RowMap) (columnName : String) : String :=
  match rowData with
  | none => ""
  | some row =>
      match rowLookup row columnName with
      | some v => if v.isNullish then "" else displayString v
      | none => ""

/-- The stage of the enhanced `exportTimeSeriesData` that builds the
`seriesInfo` list and the `result` record (after the empty-series guard has
passed). -/
def tsStage (data : Value) : Option (List SeriesInfo × ResultMap) :=
  processSeries (data.getD "series").asList 0 [] []

/-- The sorted timestamp keys `Object.keys(result).sort()` of the enhanced
`exportTimeSeriesData`. -/
def tsSortedDateTimes (result : ResultMap) : List String :=
  sortStr (result.map (fun kv => kv.1))

/-- `exportTimeSeriesData` of the enhanced `PanelActions` variant: guard,
per-series processing, `# Legend Information` comment block, the
`DateTime,Series_1,...` header and one data row per sorted timestamp.
`none` models a thrown exception. -/
def exportTimeSeriesData (data : Value) : Option String :=
  match data.getE "series" with
  | none => none
  | some series =>
      if !truthy series || !series.isArr || series.arrLen == 0 then some ""
      else
        match tsStage data with
        | none => none
        | some (infos, result) =>
            let legend := "# Legend Information:\n" ++
              String.join (infos.map (fun info =>
                "# " ++ info.columnName ++ ": " ++ displayString info.legendName ++ "\n")) ++
              "#\n"
            let columnNames := infos.map (fun info => info.columnName)
            let header := "DateTime," ++ String.intercalate "," columnNames ++ "\n"
            let rows := String.join ((tsSortedDateTimes result).map (fun dt =>
              dt ++ "," ++ String.intercalate ","
                (columnNames.map (tsCell (resultLookup result dt))) ++ "\n"))
            some (legend ++ header ++ rows)

/-- One `# name: displayName (type)` comment line of the enhanced
`exportTableData`; accessing the fields of a nullish column throws. -/
def colCommentLine (column : Value) : Option String :=
  if column.isNullish then none
  else
    let displayName := jsOr (column.getD "displayName") (column.getD "name")
    let ty := column.getD "type"
    let typeStr := if truthy ty then " (" ++ displayString ty ++ ")" else ""
    some ("# " ++ displayString (column.getD "name") ++ ": " ++
      displayString displayName ++ typeStr ++ "\n")

/-- One cell of the enhanced `exportTableData`: `row[col.name]`, with
nullish values as the empty string, and quoting applied only to string
values that contain a comma. -/
def tableCell (row col : Value) : Option String :=
  if col.isNullish then none
  else
    match row.getE (jsPropKey (col.getD "name")) with
    | none => none
    | some v =>
        if v.isNullish then some ""
        else
          match v with
          | .str s => if strContains s ',' then some (quoteWrap s) else some s
          | _ => some (displayString v)

/-- `exportTableData` of the enhanced `PanelActions` variant: guard on falsy
`columns`/`rows`, `# Column Information` comment block, header of
`displayName || name`, and one row per entry of `rows`. -/
def exportTableData (data : Value) : Option String := do
  let columns ← data.getE "columns"
  let rows ← data.getE "rows"
  if !truthy columns || !truthy rows then return ""
  let colItems ← jsIterate columns
  let comments ← colItems.mapM colCommentLine
  let colArr ← columns.asArrE
  let headerVals := colArr.map (fun col => jsOr (col.getD "displayName") (col.getD "name"))
  let rowItems ← jsIterate rows
  let rowLines ← rowItems.mapM (fun row => do
      let cells ← colArr.mapM (fun col => tableCell row col)
      return String.intercalate "," cells ++ "\n")
  return "# Column Information:\n" ++ String.join comments ++ "#\n" ++
    dispJoin headerVals ++ "\n" ++ String.join rowLines

/-- One cell of the enhanced `exportBarChartData`: `series.data[i]`,
stringified unless it is exactly `undefined` (so `null` prints as
`"null"`). -/
def barChartCell (i : Nat) (s : Value) : Option String := do
  let d ← s.getE "data"
  let v ← d.getIdxE i
  return if v.isUndefined then "" else displayString v

/-- `exportBarChartData` of the enhanced `PanelActions` variant: guard on
falsy `categories`/`series`, axis and series comment blocks, the
`Category,Series_1,...` header and one row per category. -/
def exportBarChartData (data : Value) : Option String := do
  let cats ← data.getE "categories"
  let series ← data.getE "series"
  if !truthy cats || !truthy series then return ""
  let xA := data.getD "xAxis"
  let yA := data.getD "yAxis"
  let xT := if xA.isNullish then Value.undefined else xA.getD "title"
  let yT := if yA.isNullish then Value.undefined else yA.getD "title"
  let axisInfo := "# Axis Information:\n" ++
    (if truthy xT then "# X-Axis: " ++ displayString xT ++ "\n" else "") ++
    (if truthy yT then "# Y-Axis: " ++ displayString yT ++ "\n" else "")
  let comments := "# Series Information:\n" ++
    String.join ((jsIndexElems series).enum.map (fun p =>
      if !truthy p.2 then ""
      else "# Series_" ++ toString (p.1 + 1) ++ ": " ++
        displayString (jsOr (p.2.getD "displayName") (p.2.getD "name")) ++ "\n")) ++ "#\n"
  let ss ← series.asArrE
  let headerLine := "Category," ++
    String.intercalate ","
      ((List.range ss.length).map (fun i => "Series_" ++ toString (i + 1))) ++ "\n"
  let rowLines ← (jsIndexElems cats).enum.mapM (fun p => do
      let vals ← ss.mapM (barChartCell p.1)
      return displayString p.2 ++ "," ++ String.intercalate "," vals ++ "\n")
  return axisInfo ++ comments ++ headerLine ++ String.join rowLines

end Main

/-- Effect of invoking an export handler: an early return with a console
warning (`noop`), a browser download, or an exception escaping the
handler. -/
inductive ExportOutcome where
  | noop
  | download (filename content : String)
  | thrown
deriving DecidableEq

namespace Main

/-- The handler produced by `createCsvExportHandler` of the enhanced
variant.  `now` stands for `new Date().toISOString()` at invocation time.
The comment header is always prepended, the shape serializer's output is
appended (even when it is empty), and the file download runs
unconditionally afterwards; serializer exceptions are not caught. -/
def createCsvExportHandler (title : String) (queryResults : Value)
    (dataType : Option DataType) (now : String) : ExportOutcome :=
  if !truthy queryResults then .noop
  else
    let detected : Option DataType :=
      match dataType with
      | some dt => some dt
      | none => detectDataType queryResults
    match detected with
    | none => .thrown
    | some detectedType =>
        let head := "# Chart: " ++ title ++ "\n# Data Type: " ++ typeName detectedType ++
          "\n# Exported: " ++ now ++ "\n"
        let body : Option (Option String) :=
          match detectedType with
          | .timeseries => some (exportTimeSeriesData queryResults)
          | .table => some (exportTableData queryResults)
          | .barchart => some (exportBarChartData queryResults)
          | .unknown => none
        match body with
        | none => .noop
        | some none => .thrown
        | some (some csv) =>
            .download (title ++ "_" ++ typeName detectedType ++ "_data.csv") (head ++ csv)

end Main

/-- Length lookup for `Math.max(...xs.map(s => s.data.length))`-style code:
`some` for arrays and strings, `none` when `.length` is `undefined` (which
propagates as `NaN`). -/
def jsLenOpt : Value → Option Nat
  | .arr xs => some xs.length
  | .str s => some s.length
  | _ => none

namespace Stashed

/-- Type guard `isTimeSeriesData` of the stashed `PanelActions` variant:
`data && typeof data === 'object' && 'series' in data &&
Array.isArray(data.series)`. -/
def isTimeSeriesData (data : Value) : Bool :=
  truthy data && data.isObjLike && data.hasKey "series" && (data.getD "series").isArr

/-- Type guard `isBarChartData` of the stashed variant: an object with both
`categories` and `series` keys, or with an array-valued `data` key. -/
def isBarChartData (data : Value) : Bool :=
  truthy data && data.isObjLike &&
    ((data.hasKey "categories" && data.hasKey "series") ||
     (data.hasKey "data" && (data.getD "data").isArr))

/-- Type guard `isTableData` of the stashed variant: an object with both
`columns` and `rows` keys. -/
def isTableData (data : Value) : Bool :=
  truthy data && data.isObjLike && data.hasKey "columns" && data.hasKey "rows"

/-- `formatSeriesTitle` of the stashed variant: returns the series name
unchanged. -/
def formatSeriesTitle (seriesName : Value) (_seriesIndex : Nat) : Value := seriesName

/-- Inner loop of the stashed `exportTimeSeriesData`: every entry has
`new Date(entry[0]).toISOString()` applied with no type check, so a nullish
entry or an unconvertible timestamp throws. -/
def processEntries (name : Value) : List Value → ResultMap → Option ResultMap
  | [], result => some result
  | e :: rest, result => do
      let t ← e.getIdxE 0
      let dt ← newDateToISO t
      let v ← e.getIdxE 1
      processEntries name rest (resultInsert result dt (jsPropKey name) v)

/-- Outer loop of the stashed `exportTimeSeriesData`: a series with a falsy
(safe-navigated) `name` or a non-array `values` is skipped; otherwise its
name is pushed and its entries processed. -/
def processAll : List Value → Nat → List Value → ResultMap →
    Option (List Value × ResultMap)
  | [], _, names, result => some (names, result)
  | s :: rest, i, names, result =>
      let nameV := if s.isNullish then Value.undefined else s.getD "name"
      if !truthy nameV || !(s.getD "values").isArr then
        processAll rest (i + 1) names result
      else
        let name := formatSeriesTitle nameV i
        if !truthy name then processAll rest (i + 1) (names ++ [name]) result
        else do
          let result' ← processEntries name (s.getD "values").asList result
          processAll rest (i + 1) (names ++ [name]) result'

/-- `exportTimeSeriesData` of the stashed `PanelActions` variant: guard on a
falsy or empty `series`, per-series processing, a `DateTime,<names>` header
over the first-seen unique series names, and sorted data rows. -/
def exportTimeSeriesData (data : Value) : Option String :=
  if !truthy data then some ""
  else
    let series := data.getD "series"
    if !truthy series || !series.isArr || series.arrLen == 0 then some ""
    else
      match processAll series.asList 0 [] [] with
      | none => none
      | some (names, result) =>
          let unique := dedupFS names
          let header := "DateTime," ++ dispJoin unique ++ "\n"
          let rows := String.join ((sortStr (result.map (fun kv => kv.1))).map (fun dt =>
            let cells :=
              match resultLookup result dt with
              | some row => unique.map (fun name =>
                  match rowLookup row (jsPropKey name) with
                  | some v => if v.isNullish then "" else displayString v
                  | none => "")
              | none => []
            dt ++ "," ++ String.intercalate "," cells ++ "\n"))
          some (header ++ rows)

/-- `exportBarChartData` of the stashed variant: the `categories`+`series`
branch, the flattened-`data` pivot branch, and the `Index` branch for
`series` without `categories`. -/
def exportBarChartData (data : Value) : Option String := do
  let cats ← data.getE "categories"
  let series ← data.getE "series"
  if truthy cats && truthy series then
    let sArr ← series.asArrE
    let seriesNames ← sArr.mapM (fun s => s.getE "name")
    let rowLines ← (jsIndexElems cats).enum.mapM (fun p => do
        let vals ← sArr.mapM (fun s => do
            let d ← s.getE "data"
            let v ← d.getIdxE p.1
            return if v.isNullish then Value.str "" else v)
        return displayString p.2 ++ "," ++ dispJoin vals ++ "\n")
    return "Category," ++ dispJoin seriesNames ++ "\n" ++ String.join rowLines
  else
    let dd ← data.getE "data"
    if truthy dd && dd.isArr then
      let items := dd.asList
      let rawNames ← items.mapM (fun d => do
          let s ← d.getE "series"
          return jsOr s (Value.str "Value"))
      let seriesNames := dedupFS rawNames
      let rawCats ← items.mapM (fun d => d.getE "category")
      let categories := dedupFS rawCats
      let rowLines := categories.map (fun category =>
        let vals := seriesNames.map (fun sn =>
          match items.find? (fun d =>
            Value.beq (d.getD "category") category &&
            Value.beq (jsOr (d.getD "series") (Value.str "Value")) sn) with
          | some item =>
              let v := item.getD "value"
              if v.isNullish then Value.str "" else v
          | none => Value.str "")
        displayString category ++ "," ++ dispJoin vals ++ "\n")
      return "Category," ++ dispJoin seriesNames ++ "\n" ++ String.join rowLines
    else
      if truthy series && !truthy cats then
        let sArr ← series.asArrE
        let seriesNames ← sArr.mapM (fun s => s.getE "name")
        let lens ← sArr.mapM (fun s => do
            let d ← s.getE "data"
            return jsLenOpt d)
        let maxLen : Nat :=
          if lens.any Option.isNone then 0
          else (lens.filterMap id).foldl max 0
        let rowLines ← (List.range maxLen).mapM (fun i => do
            let vals ← sArr.mapM (fun s => do
                let d ← s.getE "data"
                let v ← d.getIdxE i
                return if v.isNullish then Value.str "" else v)
            return toString i ++ "," ++ dispJoin vals ++ "\n")
        return "Index," ++ dispJoin seriesNames ++ "\n" ++ String.join rowLines
      else
        return ""

/-- One cell of the stashed `exportTableData`: `String(cell ?? '')`, with
quoting applied to cells containing a comma, a double quote or a
newline. -/
def tableCell (cell : Value) : String :=
  let cellStr := if cell.isNullish then "" else displayString cell
  escapeCellJs cellStr

/-- `exportTableData` of the stashed variant: a header joining the raw
`columns` entries and one escaped line per row (each row itself an
array). -/
def exportTableData (data : Value) : Option String := do
  let columns ← data.getE "columns"
  let rows ← data.getE "rows"
  if !truthy columns || !truthy rows then return ""
  let colArr ← columns.asArrE
  let rowItems ← jsIterate rows
  let rowLines ← rowItems.mapM (fun row => do
      let cells ← row.asArrE
      return String.intercalate "," (cells.map tableCell) ++ "\n")
  return dispJoin colArr ++ "\n" ++ String.join rowLines

/-- One cell of the array-of-objects branch of `exportGenericData`: nullish
values become the empty string, everything else is stringified and
escaped. -/
def genericCell (value : Value) : String :=
  if value.isNullish then "" else escapeCellJs (displayString value)

/-- The array-of-objects body of `exportGenericData`: the first item's keys
become the header, every item contributes one escaped row. -/
def genericArrayBranch : List Value → Option String
  | [] => some ""
  | first :: rest => do
      let keys ← jsKeysE first
      let rowLines ← (first :: rest).mapM (fun item => do
          let cells ← keys.mapM (fun key => (item.getE key).map genericCell)
          return String.intercalate "," cells ++ "\n")
      return String.intercalate "," keys ++ "\n" ++ String.join rowLines

/-- `exportGenericData` applied to an array: only a non-empty array whose
first item has type `'object'` produces output. -/
def genericOnArr (items : List Value) : Option String :=
  match items with
  | [] => some ""
  | first :: _ => if first.isObjType then genericArrayBranch items else some ""

/-- One cell of the `Property,Value` dump: `String(value ?? '')`,
escaped. -/
def genericPVCell (value : Value) : String :=
  let valueStr := if value.isNullish then "" else displayString value
  escapeCellJs valueStr

/-- `exportGenericData` of the stashed variant.  An object's first
non-empty array-valued property is exported through the array branch (the
recursive call in the source always lands on an array, so the recursion is
one level deep); otherwise a `Property,Value` dump is emitted. -/
def exportGenericData (data : Value) : Option String :=
  match data with
  | .arr items => genericOnArr items
  | .obj fields =>
      match fields.find? (fun kv => kv.2.isArr && 0 < kv.2.arrLen) with
      | some kv => genericOnArr kv.2.asList
      | none =>
          some ("Property,Value\n" ++
            String.join (fields.map (fun kv =>
              kv.1 ++ "," ++ genericPVCell kv.2 ++ "\n")))
  | _ => some ""

/-- The dispatch order of the stashed `csvExportHandler`: time series is
checked first, then bar chart, then table. -/
def classify (d : Value) : DataType :=
  if isTimeSeriesData d then .timeseries
  else if isBarChartData d then .barchart
  else if isTableData d then .table
  else .unknown

/-- The loop of the stashed handler over a `QueryData` array, looking for
the first exportable `query.data`. -/
def findInArray : List Value → Option (Option Value)
  | [] => some none
  | q :: rest => do
      let d ← q.getE "data"
      if truthy d && (isTimeSeriesData d || isBarChartData d || isTableData d) then
        return some d
      else findInArray rest

/-- The stashed `csvExportHandler`: the whole export computation runs in a
`try`/`catch` whose `catch` returns (a silent no-op), and an empty
`csvString` also returns before any file is produced; only a non-empty
serialization reaches the download. -/
def csvExportHandler (title : String) (queryResults : Value) (panelType : String) :
    ExportOutcome :=
  if !truthy queryResults then .noop
  else
    let tryRes : Option String := do
      let d0 ← match queryResults with
        | .arr qs => (findInArray qs).map (fun found => found.getD queryResults)
        | _ => some queryResults
      let dataToExport ←
        if truthy d0 && d0.isObjLike && d0.hasKey "data" then d0.getE "data"
        else some d0
      match classify dataToExport with
      | .timeseries => exportTimeSeriesData dataToExport
      | .barchart => exportBarChartData dataToExport
      | .table => exportTableData dataToExport
      | .unknown => some ""
    match tryRes with
    | none => .noop
    | some csv =>
        if csv == "" then .noop
        else .download (title ++ "_" ++ panelType ++ "Data.csv") csv

end Stashed

/-- The `in` operator: throws a `TypeError` unless the right operand is an
object or array. -/
def inOp (v : Value) (k : String) : Option Bool :=
  if v.isObjLike then some (v.hasKey k) else none

/-- Short-circuiting `Array.prototype.some` with a predicate that can
throw. -/
def anyM (p : Value → Option Bool) : List Value → Option Bool
  | [] => some false
  | x :: xs => do
      let b ← p x
      if b then return true else anyM p xs

/-- Short-circuiting `Array.prototype.every` with a predicate that can
throw. -/
def allM (p : Value → Option Bool) : List Value → Option Bool
  | [] => some true
  | x :: xs => do
      let b ← p x
      if b then allM p xs else return false

namespace Extract

/-- The `series.every` predicate of the bar-chart probe of
`extractDataForExport`: `typeof s.name === 'string' && Array.isArray(s.data)`
(a nullish element throws). -/
def barSeriesOk (s : Value) : Option Bool :=
  if s.isNullish then none
  else some ((s.getD "name").isStr && (s.getD "data").isArr)

/-- The time-likeness test of one dataset point: an array of length at
least two, or an object with a defined `x` or `t` (accessing those fields
of `null` throws). -/
def pointTimeLike (point : Value) : Option Bool :=
  match point with
  | .arr es =>
      some (es.length ≥ 2 ||
        (!((Value.arr es).getD "x").isUndefined || !((Value.arr es).getD "t").isUndefined))
  | .null => none
  | .obj fs =>
      some (!((Value.obj fs).getD "x").isUndefined || !((Value.obj fs).getD "t").isUndefined)
  | _ => some false

/-- Whether a dataset has time-like data:
`dataset.data && Array.isArray(dataset.data) && dataset.data.some(...)`. -/
def datasetTimeLike (dataset : Value) : Option Bool := do
  let d ← dataset.getE "data"
  if truthy d && d.isArr then anyM pointTimeLike d.asList
  else return false

/-- The point conversion of the alternative time-series transform: arrays
pass through, objects become `[x || t || timestamp, y || value]`, anything
else becomes `[0, point]`. -/
def mapPoint (point : Value) : Option Value :=
  match point with
  | .arr es => some (.arr es)
  | .null => none
  | .obj fs =>
      let p := Value.obj fs
      some (.arr [jsOr (p.getD "x") (jsOr (p.getD "t") (p.getD "timestamp")),
                  jsOr (p.getD "y") (p.getD "value")])
  | p => some (.arr [.num 0, p])

/-- Conversion of one dataset into a series of the alternative time-series
transform. -/
def mapDatasetTs (dataset : Value) : Option Value := do
  let lbl ← dataset.getE "label"
  let d ← dataset.getE "data"
  let pts ← d.asArrE
  let vals ← pts.mapM mapPoint
  return .obj [("name", jsOr lbl (.str "Series")),
               ("displayName", jsOr lbl (.str "Series")),
               ("values", .arr vals)]

/-- Conversion of one dataset (with its index) into a series of the
alternative bar-chart transform (`labels` + `datasets`). -/
def mapDatasetBar (p : Nat × Value) : Option Value := do
  let dataset := p.2
  let lbl ← dataset.getE "label"
  let fallback := Value.str ("Dataset " ++ toString (p.1 + 1))
  return .obj [("name", jsOr lbl fallback),
               ("displayName", jsOr lbl fallback),
               ("data", jsOr (dataset.getD "data") (.arr [])),
               ("color", jsOr (dataset.getD "backgroundColor") (dataset.getD "borderColor"))]

/-- The `labels`/`datasets` and `datasets`-with-time-like-points heuristics
of `extractDataForExport`, run when the structural probes have failed. -/
def classifyHeuristics2 (data : Value) : Option (Option (Value × DataType)) :=
  if data.isObjLike then
    let labels := data.getD "labels"
    let datasets := data.getD "datasets"
    if truthy labels && truthy datasets then do
      let sArr ← datasets.asArrE
      let series ← sArr.enum.mapM mapDatasetBar
      return some (.obj [
        ("categories", labels),
        ("series", .arr series),
        ("xAxis", jsOr (data.getD "xAxis") (.obj [("title", .str "Categories")])),
        ("yAxis", jsOr (data.getD "yAxis") (.obj [("title", .str "Values")]))], .barchart)
    else if truthy datasets && datasets.isArr then do
      let hasTime ← anyM datasetTimeLike datasets.asList
      if hasTime then do
        let series ← datasets.asList.mapM mapDatasetTs
        return some (.obj [("series", .arr series)], .timeseries)
      else return none
    else return none
  else return none

/-- The array-of-objects heuristic of `extractDataForExport`, falling back
to `classifyHeuristics2`. -/
def classifyHeuristics (data : Value) : Option (Option (Value × DataType)) :=
  match data with
  | .arr (first :: rest) =>
      if first.isObjLike then do
        let keys ← jsKeysE first
        return some (.obj [
          ("columns", .arr (keys.map (fun k =>
            Value.obj [("name", .str k), ("displayName", .str k)]))),
          ("rows", .arr (first :: rest))], .table)
      else classifyHeuristics2 data
  | _ => classifyHeuristics2 data

/-- The per-payload classification of `extractDataForExport` (run on each
`query.data` that is truthy): the time-series, table and bar-chart probes in
order, then the heuristics.  The outer `Option` models a thrown exception;
the inner `none` means no probe matched and the loop continues. -/
def classifyData (data : Value) : Option (Option (Value × DataType)) := do
  let hasSeries ← inOp data "series"
  if hasSeries && (data.getD "series").isArr then
    return some (data, .timeseries)
  else
    let hasCols ← inOp data "columns"
    let hasRows ← inOp data "rows"
    if hasCols && hasRows then
      return some (data, .table)
    else
      let hasCats ← inOp data "categories"
      let hasSer ← inOp data "series"
      if hasCats && hasSer then
        let cats := data.getD "categories"
        let series := data.getD "series"
        if cats.isArr && series.isArr then do
          let oks ← allM barSeriesOk series.asList
          if oks then
            return some (.obj [("categories", cats), ("series", series),
              ("xAxis", data.getD "xAxis"), ("yAxis", data.getD "yAxis"),
              ("metadata", data.getD "metadata")], .barchart)
          else classifyHeuristics data
        else classifyHeuristics data
      else classifyHeuristics data

/-- `extractDataForExport` of the enhanced `PanelHeader`: scans the query
results in order, classifying the first truthy `data`; returns
`(undefined, 'unknown')` when nothing matches. -/
def extractDataForExport : List Value → Option (Option Value × DataType)
  | [] => some (none, .unknown)
  | q :: rest => do
      let d ← q.getE "data"
      if !truthy d then extractDataForExport rest
      else do
        let r ← classifyData d
        match r with
        | some payload => return (some payload.1, payload.2)
        | none => extractDataForExport rest

end Extract

/-- One query result of the upstream `PanelActions` variant: the payload,
the fetch flag and the error (nullish when absent). -/
structure QueryData where
  data : Value
  isFetching : Bool
  error : Value

/-- What the query state indicator renders: a loading spinner, an error icon
with its tooltip text, or nothing. -/
inductive Indicator where
  | loading
  | error (tooltip : String)
  | hidden
deriving DecidableEq

/-- The error-message chain `e?.message ?? e?.toString() ?? 'Unknown error'`
of the state indicator, combined with the stringification applied by the
subsequent `join('\n')`. -/
def errText (e : Value) : String :=
  let m := if e.isNullish then Value.undefined else e.getD "message"
  if !m.isNullish then displayString m
  else if e.isNullish then "Unknown error"
  else displayString e

/-- The query state indicator of the upstream `PanelActions` variant: a
loading spinner when some result is fetching and some result has data,
otherwise an error icon when any result carries an error (tooltip =
newline-joined messages), otherwise nothing. -/
def queryStateIndicator (queryResults : List QueryData) : Indicator :=
  let hasData := queryResults.any (fun q => truthy q.data)
  let isFetching := queryResults.any (fun q => q.isFetching)
  let queryErrors := queryResults.filter (fun q => truthy q.error)
  if isFetching && hasData then .loading
  else if 0 < queryErrors.length then
    .error (String.intercalate "\n" (queryErrors.map (fun q => errText q.error)))
  else .hidden

theorem data_append (p q : String) : (p ++ q).data = p.data ++ q.data := rfl

theorem prefixed_ne_empty (p q : String) (h : p.data ≠ []) : p ++ q ≠ "" := by
  intro hc
  apply h
  have hd : (p ++ q).data = ([] : List Char) := by rw [hc]
  rw [data_append] at hd
  exact (List.append_eq_nil.mp hd).1

theorem mem_insertStr {a x : String} {l : List String} :
    a ∈ insertStr x l ↔ a = x ∨ a ∈ l := by
  induction l with
  | nil => simp [insertStr]
  | cons y ys ih =>
    simp only [insertStr]
    split
    · simp [List.mem_cons]
    · simp [List.mem_cons, ih]
      tauto

theorem charListLe_total (as bs : List Char) :
    charListLe as bs = true ∨ charListLe bs as = true := by
  induction as generalizing bs with
  | nil => left; rfl
  | cons a as' ih =>
    cases bs with
    | nil => right; rfl
    | cons b bs' =>
      rcases Nat.lt_trichotomy a.toNat b.toNat with h | h | h
      · left
        simp [charListLe, h]
      · rcases ih bs' with h2 | h2
        · left
          simp [charListLe, h, h2]
        · right
          simp [charListLe, h.symm, h2]
      · right
        simp [charListLe, h]

theorem charListLe_trans {as bs cs : List Char}
    (h1 : charListLe as bs = true) (h2 : charListLe bs cs = true) :
    charListLe as cs = true := by
  induction as generalizing bs cs with
  | nil => rfl
  | cons a as' ih =>
    cases bs with
    | nil => simp [charListLe] at h1
    | cons b bs' =>
      cases cs with
      | nil => simp [charListLe] at h2
      | cons c cs' =>
        simp only [charListLe] at h1 h2 ⊢
        by_cases hab : a.toNat < b.toNat
        · by_cases hbc : b.toNat < c.toNat
          · simp [Nat.lt_trans hab hbc]
          · by_cases hcb : c.toNat < b.toNat
            · rw [if_neg hbc, if_pos hcb] at h2
              exact absurd h2 (by simp)
            · have hac : a.toNat < c.toNat := by omega
              simp [hac]
        · by_cases hba : b.toNat < a.toNat
          · rw [if_neg hab, if_pos hba] at h1
            exact absurd h1 (by simp)
          · rw [if_neg hab, if_neg hba] at h1
            by_cases hbc : b.toNat < c.toNat
            · have hac : a.toNat < c.toNat := by omega
              simp [hac]
            · by_cases hcb : c.toNat < b.toNat
              · rw [if_neg hbc, if_pos hcb] at h2
                exact absurd h2 (by simp)
              · rw [if_neg hbc, if_neg hcb] at h2
                have hac : ¬ a.toNat < c.toNat := by omega
                have hca : ¬ c.toNat < a.toNat := by omega
                rw [if_neg hac, if_neg hca]
                exact ih h1 h2

theorem strLeB_total (a b : String) : strLeB a b = true ∨ strLeB b a = true :=
  charListLe_total a.data b.data

theorem strLeB_trans {a b c : String} (h1 : strLeB a b = true)
    (h2 : strLeB b c = true) : strLeB a c = true :=
  charListLe_trans h1 h2

theorem insertStr_sorted (x : String) (l : List String)
    (h : l.Sorted (fun a b => strLeB a b = true)) :
    (insertStr x l).Sorted (fun a b => strLeB a b = true) := by
  induction l with
  | nil => simp [insertStr]
  | cons y ys ih =>
    rw [List.sorted_cons] at h
    simp only [insertStr]
    split
    · rename_i hxy
      rw [List.sorted_cons]
      refine ⟨?_, ?_⟩
      · intro z hz
        rcases List.mem_cons.mp hz with rfl | hz
        · exact hxy
        · exact strLeB_trans hxy (h.1 z hz)
      · rw [List.sorted_cons]
        exact h
    · rename_i hxy
      rw [List.sorted_cons]
      refine ⟨?_, ?_⟩
      · intro z hz
        rcases mem_insertStr.mp hz with heq | hz
        · show strLeB y z = true
          rw [heq]
          rcases strLeB_total x y with ht | ht
          · exact absurd ht hxy
          · exact ht
        · exact h.1 z hz
      · exact ih h.2

theorem sortStr_sorted (l : List String) :
    (sortStr l).Sorted (fun a b => strLeB a b = true) := by
  induction l with
  | nil => simp [sortStr, List.Sorted]
  | cons x xs ih => exact insertStr_sorted x _ ih

theorem unescQuotes_cons_of_ne {c : Char} (h : c ≠ '"') (l : List Char) :
    unescQuotes (c :: l) = c :: unescQuotes l := by
  cases l with
  | nil => rfl
  | cons d ds =>
    have hb : (c == '"') = false := by simpa using h
    simp [unescQuotes, hb]

theorem unescQuotes_escQuotes (l : List Char) : unescQuotes (escQuotes l) = l := by
  induction l with
  | nil => rfl
  | cons c cs ih =>
    by_cases h : c = '"'
    · subst h
      have he : escQuotes ('"' :: cs) = '"' :: '"' :: escQuotes cs := by
        simp [escQuotes]
      rw [he]
      simp only [unescQuotes, beq_self_eq_true, Bool.and_self, if_true, ih]
    · have hb : (c == '"') = false := by simpa using h
      have he : escQuotes (c :: cs) = c :: escQuotes cs := by
        simp [escQuotes, hb]
      rw [he, unescQuotes_cons_of_ne h, ih]

theorem quoteWrap_data (s : String) :
    (quoteWrap s).data = '"' :: (escQuotes s.data ++ ['"']) := rfl

theorem csvUnescapeCell_quoteWrap (s : String) : csvUnescapeCell (quoteWrap s) = s := by
  unfold csvUnescapeCell
  rw [quoteWrap_data]
  simp only [List.dropLast_concat, List.getLast?_concat, unescQuotes_escQuotes]
  simp

theorem hasKey_of_getD_obj {fields : List (String × Value)} {k : String} {v : Value}
    (h : Value.getD (.obj fields) k = v) (hv : v.isNullish = false) :
    (Value.obj fields).hasKey k = true := by
  simp only [Value.getD] at h
  cases hf : fields.find? (fun kv => kv.1 == k) with
  | none =>
      rw [hf] at h
      simp only at h
      rw [← h] at hv
      simp [Value.isNullish] at hv
  | some kv =>
      have hm := List.mem_of_find?_eq_some hf
      have hp := List.find?_some hf
      unfold Value.hasKey
      exact List.any_eq_true.mpr ⟨kv, hm, hp⟩

theorem getD_nonobj_const {v : Value} (hv : v.isObjLike = false) (k : String)
    (hk : strToNatCanon k = none) (hl : (k == "length") = false) : v.getD k = .undefined := by
  cases v with
  | obj fields => simp [Value.isObjLike] at hv
  | arr xs => simp [Value.isObjLike] at hv
  | str s => simp [Value.getD, hk, hl]
  | null => rfl
  | undefined => rfl
  | bool b => rfl
  | num n => rfl

theorem obj_of_getD_arr {d : Value} {k : String} {xs : List Value}
    (h : d.getD k = .arr xs) (hk : strToNatCanon k = none) (hl : (k == "length") = false) :
    ∃ fields, d = Value.obj fields := by
  cases d with
  | obj fields => exact ⟨fields, rfl⟩
  | arr ys => simp [Value.getD, hk, hl] at h
  | str s => simp [Value.getD, hk, hl] at h
  | null => cases h
  | undefined => cases h
  | bool b => cases h
  | num n => cases h

theorem not_nullish_of_truthy_getD {s : Value} {k : String}
    (h : truthy (s.getD k) = true) : s.isNullish = false := by
  cases s with
  | null => exact absurd h (by rw [show Value.getD .null k = .undefined from rfl]; simp [truthy])
  | undefined => exact absurd h (by rw [show Value.getD .undefined k = .undefined from rfl]; simp [truthy])
  | _ => rfl

theorem getE_of_not_nullish {s : Value} (h : s.isNullish = false) (k : String) :
    s.getE k = some (s.getD k) := by
  unfold Value.getE
  simp [h]

theorem detectAfterTs_ne_timeseries (d : Value) : detectAfterTs d ≠ .timeseries := by
  unfold detectAfterTs
  split
  · decide
  · split
    · split
      · split
        · decide
        · decide
      · decide
    · decide

theorem strToNatCanon_series : strToNatCanon "series" = none := by decide

theorem detectDataType_obj_series {fields : List (String × Value)} {s : Value}
    {rest : List Value}
    (hser : (Value.obj fields).getD "series" = .arr (s :: rest)) :
    detectDataType (Value.obj fields) =
      (s.getE "values").map (fun v =>
        if truthy v && v.isArr then DataType.timeseries
        else detectAfterTs (Value.obj fields)) := by
  simp only [detectDataType, hser]
  simp [truthy, Value.isArr, Value.arrLen]

/-- Claim C9: with a non-empty `series` array, `detectDataType` classifies
the payload as `'timeseries'` exactly when the first series element has a
truthy, array-valued `values` field — later series elements are never
inspected (the right-hand side mentions only the head `s`), and a payload
whose first series lacks `values` is not classified as time series. -/
theorem c9_first_series_only (d : Value) (s : Value) (rest : List Value)
    (hser : d.getD "series" = .arr (s :: rest)) :
    detectDataType d = some .timeseries ↔
      (truthy (s.getD "values") && (s.getD "values").isArr) = true := by
  obtain ⟨fields, rfl⟩ := obj_of_getD_arr hser (by decide) (by decide)
  rw [detectDataType_obj_series hser]
  by_cases hc : (truthy (s.getD "values") && (s.getD "values").isArr) = true
  · have hnn : s.isNullish = false :=
      not_nullish_of_truthy_getD (Bool.and_elim_left hc)
    rw [getE_of_not_nullish hnn]
    have hmap : (some (s.getD "values")).map (fun v =>
        if truthy v && v.isArr then DataType.timeseries
        else detectAfterTs (Value.obj fields)) = some DataType.timeseries :=
      congrArg some (if_pos hc)
    rw [hmap]
    simp [hc]
  · cases hn : s.isNullish with
    | true =>
        rw [show s.getE "values" = none from by simp [Value.getE, hn]]
        simp [hc]
    | false =>
        rw [getE_of_not_nullish hn]
        have hmap : (some (s.getD "values")).map (fun v =>
            if truthy v && v.isArr then DataType.timeseries
            else detectAfterTs (Value.obj fields)) =
            some (detectAfterTs (Value.obj fields)) :=
          congrArg some (if_neg hc)
        rw [hmap]
        constructor
        · intro hsome
          exact absurd (Option.some.inj hsome) (detectAfterTs_ne_timeseries _)
        · intro habs
          exact absurd habs hc

theorem c9_witness :
    (Value.obj [("series",
        Value.arr [Value.obj [("name", Value.str "A")],
                   Value.obj [("values", Value.arr [])]])]).getD "series" =
      Value.arr (Value.obj [("name", Value.str "A")] ::
                 [Value.obj [("values", Value.arr [])]]) ∧
    detectDataType (Value.obj [("series",
        Value.arr [Value.obj [("name", Value.str "A")],
                   Value.obj [("values", Value.arr [])]])]) ≠ some .timeseries := by
  refine ⟨rfl, ?_⟩
  intro h
  have h2 := (c9_first_series_only
    (Value.obj [("series",
        Value.arr [Value.obj [("name", Value.str "A")],
                   Value.obj [("values", Value.arr [])]])])
    (Value.obj [("name", Value.str "A")])
    [Value.obj [("values", Value.arr [])]] rfl).mp h
  exact absurd h2 (by decide)

/-- Claim C1: a payload carrying both a `series` array all of whose elements
have truthy array-valued `values` and a `categories` array is classified
as time series by every classifier variant — `detectDataType`, the probe
chain of `extractDataForExport`, and the stashed type-guard dispatch — i.e.
the time-series probe fires before the bar-chart probe in each. -/
theorem c1_timeseries_wins_over_barchart (d : Value) (ss cs : List Value)
    (hser : d.getD "series" = .arr ss) (hne : ss ≠ [])
    (hvals : ∀ s ∈ ss, truthy (s.getD "values") = true ∧ (s.getD "values").isArr = true)
    (hcats : d.getD "categories" = .arr cs) :
    detectDataType d = some .timeseries ∧
    Extract.extractDataForExport [Value.obj [("data", d)]] = some (some d, .timeseries) ∧
    Stashed.classify d = .timeseries := by
  obtain ⟨fields, rfl⟩ := obj_of_getD_arr hser (by decide) (by decide)
  obtain ⟨s, rest, rfl⟩ : ∃ s rest, ss = s :: rest := by
    cases ss with
    | nil => exact absurd rfl hne
    | cons s rest => exact ⟨s, rest, rfl⟩
  have hs := hvals s (List.mem_cons_self s rest)
  have hkey : (Value.obj fields).hasKey "series" = true :=
    hasKey_of_getD_obj hser (by rfl)
  have hin : inOp (Value.obj fields) "series" = some true := by
    simp [inOp, Value.isObjLike, hkey]
  have hq : (Value.obj [("data", Value.obj fields)]).getE "data" =
      some (Value.obj fields) := rfl
  refine ⟨?_, ?_, ?_⟩
  · exact (c9_first_series_only _ s rest hser).mpr (by rw [hs.1, hs.2]; rfl)
  · simp [Extract.extractDataForExport, Extract.classifyData, hq, hin, hser,
      truthy, Value.isArr]
  · simp [Stashed.classify, Stashed.isTimeSeriesData, hkey, hser, truthy,
      Value.isObjLike, Value.isArr]

theorem c1_witness :
    detectDataType (Value.obj [
        ("series", Value.arr [Value.obj [("values", Value.arr [Value.arr [Value.num 0, Value.num 1]])]]),
        ("categories", Value.arr [Value.str "a"])]) = some .timeseries ∧
    Extract.extractDataForExport [Value.obj [("data", Value.obj [
        ("series", Value.arr [Value.obj [("values", Value.arr [Value.arr [Value.num 0, Value.num 1]])]]),
        ("categories", Value.arr [Value.str "a"])])]] =
      some (some (Value.obj [
        ("series", Value.arr [Value.obj [("values", Value.arr [Value.arr [Value.num 0, Value.num 1]])]]),
        ("categories", Value.arr [Value.str "a"])]), .timeseries) ∧
    Stashed.classify (Value.obj [
        ("series", Value.arr [Value.obj [("values", Value.arr [Value.arr [Value.num 0, Value.num 1]])]]),
        ("categories", Value.arr [Value.str "a"])]) = .timeseries :=
  c1_timeseries_wins_over_barchart _
    [Value.obj [("values", Value.arr [Value.arr [Value.num 0, Value.num 1]])]]
    [Value.str "a"] rfl (by simp) (by decide) rfl

/-- Claim C6: in the enhanced `exportTimeSeriesData`, a numeric timestamp
greater than `1e10` is used as milliseconds unchanged, and a smaller one is
multiplied by `1000`, before ISO-8601 conversion — shown end-to-end on a
single-series, single-entry payload whose emitted data row carries exactly
`isoStringOfMs` of the disambiguated milliseconds. -/
theorem c6_timestamp_threshold (t v : Int)
    (h : (if t > 10000000000 then t else t * 1000).natAbs ≤ 8640000000000000) :
    Main.exportTimeSeriesData (Value.obj [("series", Value.arr [Value.obj [
        ("name", Value.str "A"),
        ("values", Value.arr [Value.arr [Value.num t, Value.num v]])]])]) =
      some ("# Legend Information:\n# Series_1: A\n#\nDateTime,Series_1\n" ++
        isoStringOfMs (if t > 10000000000 then t else t * 1000) ++ "," ++
        toString v ++ "\n") := by
  have hiso : dateToISO (if t > 10000000000 then t else t * 1000) =
      some (isoStringOfMs (if t > 10000000000 then t else t * 1000)) := by
    unfold dateToISO
    rw [if_pos h]
  have hconv : convertTimestamp (Value.num t) =
      .converted (isoStringOfMs (if t > 10000000000 then t else t * 1000)) := by
    simp only [convertTimestamp]
    rw [hiso]
  simp [Main.exportTimeSeriesData, Main.tsStage, Main.processSeries,
    Main.processEntries, hconv, Main.tsSortedDateTimes, sortStr, insertStr,
    Main.tsCell, resultInsert, resultLookup, rowLookup, getSeriesLegendName,
    jsOr, Value.getD, Value.getE, truthy, Value.isArr, Value.arrLen,
    Value.asList, Value.isNullish, displayString, String.intercalate,
    String.join]
  rw [show String.intercalate.go ("Series_" ++ toString 1) "," ([] : List String) =
        "Series_" ++ toString 1 from rfl,
      show String.intercalate.go (toString v) "," ([] : List String) =
        toString v from rfl]
  simp only [← String.append_assoc]
  congr 3

theorem c6_witness :
    ((if (60 : Int) > 10000000000 then (60 : Int) else 60 * 1000).natAbs ≤
      8640000000000000) ∧
    Main.exportTimeSeriesData (Value.obj [("series", Value.arr [Value.obj [
        ("name", Value.str "A"),
        ("values", Value.arr [Value.arr [Value.num 60, Value.num 2]])]])]) =
      some ("# Legend Information:\n# Series_1: A\n#\n" ++
        "DateTime,Series_1\n1970-01-01T00:01:00.000Z,2\n") := by
  refine ⟨by decide, ?_⟩
  rw [c6_timestamp_threshold 60 2 (by decide)]
  rfl

/-- Claim C7: the enhanced `exportTimeSeriesData` emits its data rows in
ascending lexicographic timestamp order (the sorted key list it iterates is
sorted under code-unit comparison), and a series with no value at a given
timestamp yields an empty cell: for `A=[[0,1],[60,2]]`, `B=[[0,10]]` in
seconds the two rows are `1970-01-01T00:00:00.000Z,1,10` and
`1970-01-01T00:01:00.000Z,2,` (trailing cell empty, not zero). -/
theorem c7_sorted_rows_and_empty_cells :
    (∀ result : ResultMap,
      (Main.tsSortedDateTimes result).Sorted (fun a b => strLeB a b = true)) ∧
    Main.exportTimeSeriesData (Value.obj [("series", Value.arr [
      Value.obj [("name", Value.str "A"),
        ("values", Value.arr [Value.arr [Value.num 0, Value.num 1],
                              Value.arr [Value.num 60, Value.num 2]])],
      Value.obj [("name", Value.str "B"),
        ("values", Value.arr [Value.arr [Value.num 0, Value.num 10]])]])]) =
      some ("# Legend Information:\n# Series_1: A\n# Series_2: B\n#\n" ++
        "DateTime,Series_1,Series_2\n" ++
        "1970-01-01T00:00:00.000Z,1,10\n" ++
        "1970-01-01T00:01:00.000Z,2,\n") := by
  refine ⟨fun result => sortStr_sorted _, ?_⟩
  rfl

/-- Claim C8: the upstream query state indicator shows the loading spinner
exactly when some result is fetching and some result already has data (so
loading wins over error when both conditions hold, the loading branch being
checked first), and otherwise shows the error icon whenever any result
carries a truthy error, with a tooltip joining all messages (each resolved
by `errText`, which defaults to `"Unknown error"`) with newlines. -/
theorem c8_state_indicator (qs : List QueryData) :
    (queryStateIndicator qs = .loading ↔
      ((∃ q ∈ qs, q.isFetching = true) ∧ (∃ q ∈ qs, truthy q.data = true))) ∧
    ((¬ ((∃ q ∈ qs, q.isFetching = true) ∧ (∃ q ∈ qs, truthy q.data = true))) →
      (∃ q ∈ qs, truthy q.error = true) →
      queryStateIndicator qs = .error (String.intercalate "\n"
        ((qs.filter (fun q => truthy q.error)).map (fun q => errText q.error)))) := by
  have hany1 : (qs.any (fun q => q.isFetching)) = true ↔
      ∃ q ∈ qs, q.isFetching = true := by
    simp [List.any_eq_true]
  have hany2 : (qs.any (fun q => truthy q.data)) = true ↔
      ∃ q ∈ qs, truthy q.data = true := by
    simp [List.any_eq_true]
  have hany3 : (0 < (qs.filter (fun q => truthy q.error)).length) ↔
      (∃ q ∈ qs, truthy q.error = true) := by
    simp [List.length_pos_iff_exists_mem, List.mem_filter]
  unfold queryStateIndicator
  by_cases hb : (qs.any (fun q => q.isFetching) && qs.any (fun q => truthy q.data)) = true
  · rw [if_pos hb]
    refine ⟨⟨fun _ => ⟨hany1.mp (Bool.and_elim_left hb),
      hany2.mp (Bool.and_elim_right hb)⟩, fun _ => rfl⟩, ?_⟩
    intro hno _
    exact absurd ⟨hany1.mp (Bool.and_elim_left hb),
      hany2.mp (Bool.and_elim_right hb)⟩ hno
  · rw [if_neg hb]
    have hnot : ¬ ((∃ q ∈ qs, q.isFetching = true) ∧ (∃ q ∈ qs, truthy q.data = true)) := by
      intro hc
      exact hb (by rw [hany1.mpr hc.1, hany2.mpr hc.2]; rfl)
    by_cases he : 0 < (qs.filter (fun q => truthy q.error)).length
    · rw [if_pos he]
      refine ⟨⟨fun h => absurd h (by simp), fun hc => absurd hc hnot⟩, ?_⟩
      intro _ _
      rfl
    · rw [if_neg he]
      refine ⟨⟨fun h => absurd h (by simp), fun hc => absurd hc hnot⟩, ?_⟩
      intro _ herr
      exact absurd (hany3.mpr herr) he

theorem c8_witness :
    queryStateIndicator
      [⟨Value.undefined, false, Value.obj [("message", Value.str "boom")]⟩] =
      .error "boom" := by
  rw [(c8_state_indicator
    [⟨Value.undefined, false, Value.obj [("message", Value.str "boom")]⟩]).2
    (by decide) (by decide)]
  rfl

/-- Worker splitting a character list at newlines. -/
def splitLinesAux : List Char → List Char → List String
  | [], acc => [String.mk acc.reverse]
  | c :: cs, acc =>
      if c == '\n' then String.mk acc.reverse :: splitLinesAux cs []
      else splitLinesAux cs (c :: acc)

/-- The lines of a CSV text (split at `'\n'`). -/
def csvLines (s : String) : List String := splitLinesAux s.data []

/-- The synthetic column names `Series_{i+1}, ...` for `n` series starting
at index `i`. -/
def colNamesFrom : Nat → Nat → List String
  | 0, _ => []
  | n + 1, i => ("Series_" ++ toString (i + 1)) :: colNamesFrom n (i + 1)

/-- The synthetic column names of the enhanced time-series header. -/
def seriesColumnNames (n : Nat) : List String := colNamesFrom n 0

/-- The `# Series_{i+1}: <legend>` comment block, with the legend resolved
by the first-truthy chain `formattedName`, `legendName`, `displayName`,
`legend`, `name`, else `"Series {i+1}"`. -/
def legendComments : List Value → Nat → String
  | [], _ => ""
  | s :: rest, i =>
      "# Series_" ++ toString (i + 1) ++ ": " ++
        displayString (jsOr (s.getD "formattedName") (jsOr (s.getD "legendName")
          (jsOr (s.getD "displayName") (jsOr (s.getD "legend")
            (jsOr (s.getD "name") (.str ("Series " ++ toString (i + 1)))))))) ++ "\n" ++
      legendComments rest (i + 1)

/-- Whether one `values` entry is processed without throwing by the enhanced
serializer: not an array, too short, or a timestamp whose conversion does
not throw. -/
def entryOkB (e : Value) : Bool :=
  match e with
  | .arr es => decide (es.length < 2) || (convertTimestamp (es.getD 0 .undefined) != .thrown)
  | _ => true

/-- The `SeriesInfo` list accumulated over a series list starting at a given
index, when every series is kept. -/
def infosFrom : List Value → Nat → List SeriesInfo
  | [], _ => []
  | s :: rest, i => getSeriesLegendName s i :: infosFrom rest (i + 1)

theorem processEntries_ok (cn : String) (l : List Value) (r : ResultMap)
    (h : ∀ e ∈ l, entryOkB e = true) :
    ∃ r2, Main.processEntries cn l r = some r2 := by
  induction l generalizing r with
  | nil => exact ⟨r, rfl⟩
  | cons e rest ih =>
    have he := h e (List.mem_cons_self e rest)
    have hrest : ∀ e2 ∈ rest, entryOkB e2 = true :=
      fun e2 hm => h e2 (List.mem_cons_of_mem e hm)
    cases e with
    | arr es =>
        simp only [Main.processEntries]
        by_cases hlen : es.length < 2
        · rw [if_pos hlen]
          exact ih _ hrest
        · rw [if_neg hlen]
          have hne : convertTimestamp (es.getD 0 .undefined) ≠ .thrown := by
            simp only [entryOkB, Bool.or_eq_true, decide_eq_true_eq, bne_iff_ne] at he
            rcases he with he | he
            · exact absurd he hlen
            · exact he
          cases hconv : convertTimestamp (es.getD 0 .undefined) with
          | skipped => exact ih _ hrest
          | thrown => exact absurd hconv hne
          | converted dt => exact ih _ hrest
    | null => exact ih _ hrest
    | undefined => exact ih _ hrest
    | bool b => exact ih _ hrest
    | num n => exact ih _ hrest
    | str s => exact ih _ hrest
    | obj fs => exact ih _ hrest

theorem processSeries_ok (ss : List Value) (i : Nat) (infos : List SeriesInfo)
    (r : ResultMap)
    (hkept : ∀ s ∈ ss, truthy s = true ∧ (s.getD "values").isArr = true)
    (hclean : ∀ s ∈ ss, ∀ e ∈ (s.getD "values").asList, entryOkB e = true) :
    ∃ r2, Main.processSeries ss i infos r = some (infos ++ infosFrom ss i, r2) := by
  induction ss generalizing i infos r with
  | nil => exact ⟨r, by simp [Main.processSeries, infosFrom]⟩
  | cons s rest ih =>
    have hk := hkept s (List.mem_cons_self s rest)
    have hc := hclean s (List.mem_cons_self s rest)
    have hkrest : ∀ s2 ∈ rest, truthy s2 = true ∧ (s2.getD "values").isArr = true :=
      fun s2 hm => hkept s2 (List.mem_cons_of_mem s hm)
    have hcrest : ∀ s2 ∈ rest, ∀ e ∈ (s2.getD "values").asList, entryOkB e = true :=
      fun s2 hm => hclean s2 (List.mem_cons_of_mem s hm)
    obtain ⟨r2, hr2⟩ := processEntries_ok (getSeriesLegendName s i).columnName
      (s.getD "values").asList r hc
    obtain ⟨r3, hr3⟩ := ih (i + 1) (infos ++ [getSeriesLegendName s i]) r2 hkrest hcrest
    refine ⟨r3, ?_⟩
    simp only [Main.processSeries, hk.1, hk.2, Bool.not_true, Bool.or_self,
      Bool.false_eq_true, if_false]
    rw [hr2]
    show Main.processSeries rest (i + 1) (infos ++ [getSeriesLegendName s i]) r2 =
      some (infos ++ infosFrom (s :: rest) i, r3)
    rw [hr3]
    simp [infosFrom]

theorem foldl_append_hoist (x y : String) (l : List String) :
    l.foldl (· ++ ·) (x ++ y) = x ++ l.foldl (· ++ ·) y := by
  induction l generalizing y with
  | nil => rfl
  | cons a as ih => simp only [List.foldl_cons, String.append_assoc, ih]

theorem join_cons (a : String) (l : List String) :
    String.join (a :: l) = a ++ String.join l := by
  show l.foldl (· ++ ·) ("" ++ a) = a ++ l.foldl (· ++ ·) ""
  rw [show ("" ++ a : String) = a ++ "" from by simp, foldl_append_hoist]

theorem join_legendComments (ss : List Value) (i : Nat) :
    String.join ((infosFrom ss i).map (fun info =>
      "# " ++ info.columnName ++ ": " ++ displayString info.legendName ++ "\n")) =
    legendComments ss i := by
  induction ss generalizing i with
  | nil => rfl
  | cons s rest ih =>
    simp only [infosFrom, List.map_cons, join_cons, legendComments, ih (i + 1)]
    simp only [getSeriesLegendName]
    simp only [← String.append_assoc]
    congr 3

theorem map_columnName_infosFrom (ss : List Value) (i : Nat) :
    (infosFrom ss i).map (fun info => info.columnName) = colNamesFrom ss.length i := by
  induction ss generalizing i with
  | nil => rfl
  | cons s rest ih => simp [infosFrom, colNamesFrom, getSeriesLegendName, ih]

/-- Claim C2 (amended): the legend chain (first truthy of `formattedName`,
`legendName`, `displayName`, `legend`, `name`, else `"Series {i+1}"`) is
emitted only in the `# Series_{i+1}: <legend>` comment lines
(`legendComments`); the header row is `DateTime,Series_1,...,Series_n` with
one synthetic column per kept series in index order — the resolved names
never become column names, and since the synthetic columns are unique no
collision/last-wins behaviour arises. -/
theorem c2_amended (d : Value) (ss : List Value)
    (hser : d.getD "series" = .arr ss) (hne : ss ≠ [])
    (hkept : ∀ s ∈ ss, truthy s = true ∧ (s.getD "values").isArr = true)
    (hclean : ∀ s ∈ ss, ∀ e ∈ (s.getD "values").asList, entryOkB e = true) :
    ∃ rows, Main.exportTimeSeriesData d =
      some ("# Legend Information:\n" ++ legendComments ss 0 ++ "#\n" ++
        ("DateTime," ++ String.intercalate "," (seriesColumnNames ss.length) ++ "\n") ++
        rows) := by
  obtain ⟨fields, rfl⟩ := obj_of_getD_arr hser (by decide) (by decide)
  obtain ⟨s0, rest0, rfl⟩ : ∃ a b, ss = a :: b := by
    cases ss with
    | nil => exact absurd rfl hne
    | cons a b => exact ⟨a, b, rfl⟩
  have h0 : (Value.obj fields).isNullish = false := rfl
  have hgE : (Value.obj fields).getE "series" = some (.arr (s0 :: rest0)) := by
    rw [getE_of_not_nullish h0, hser]
  obtain ⟨r2, hr2⟩ := processSeries_ok (s0 :: rest0) 0 [] [] hkept hclean
  refine ⟨String.join ((Main.tsSortedDateTimes r2).map (fun dt =>
    dt ++ "," ++ String.intercalate ","
      ((colNamesFrom (s0 :: rest0).length 0).map (Main.tsCell (resultLookup r2 dt))) ++
    "\n")), ?_⟩
  simp only [Main.exportTimeSeriesData, hgE]
  rw [if_neg (by simp [truthy, Value.isArr, Value.arrLen])]
  simp only [Main.tsStage, hser, Value.asList]
  rw [hr2]
  simp only [List.nil_append, join_legendComments, map_columnName_infosFrom,
    seriesColumnNames]

theorem string_append_left_cancel {a b c : String} (h : a ++ b = a ++ c) : b = c := by
  have hd := congrArg String.data h
  simp only [data_append] at hd
  have hl := List.append_cancel_left hd
  cases b
  cases c
  exact congrArg String.mk hl

/-- Claim C2 (counterexample): for a series with `formattedName: "F"` and
`name: "N"` the enhanced serializer's header row is `DateTime,Series_1`,
not `DateTime,F` — the resolved legend name never becomes the column name;
and with `formattedName: ""` the comment legend falls through to `N`
(truthiness `||`, not nullish `??` as the claim's chain states). -/
theorem c2_counterexample :
    Main.exportTimeSeriesData (Value.obj [("series", Value.arr [Value.obj [
        ("formattedName", Value.str "F"), ("name", Value.str "N"),
        ("values", Value.arr [Value.arr [Value.num 0, Value.num 1]])]])]) =
      some ("# Legend Information:\n# Series_1: F\n#\n" ++
        "DateTime,Series_1\n1970-01-01T00:00:00.000Z,1\n") ∧
    "DateTime,F" ∉ csvLines ("# Legend Information:\n# Series_1: F\n#\n" ++
        "DateTime,Series_1\n1970-01-01T00:00:00.000Z,1\n") ∧
    "DateTime,Series_1" ∈ csvLines ("# Legend Information:\n# Series_1: F\n#\n" ++
        "DateTime,Series_1\n1970-01-01T00:00:00.000Z,1\n") ∧
    Main.exportTimeSeriesData (Value.obj [("series", Value.arr [Value.obj [
        ("formattedName", Value.str ""), ("name", Value.str "N"),
        ("values", Value.arr [Value.arr [Value.num 0, Value.num 1]])]])]) =
      some ("# Legend Information:\n# Series_1: N\n#\n" ++
        "DateTime,Series_1\n1970-01-01T00:00:00.000Z,1\n") :=
  ⟨rfl, by decide, by decide, rfl⟩

theorem c2_witness :
    Main.exportTimeSeriesData (Value.obj [("series", Value.arr [Value.obj [
        ("formattedName", Value.str "F"), ("name", Value.str "N"),
        ("values", Value.arr [Value.arr [Value.num 0, Value.num 1]])]])]) =
      some ("# Legend Information:\n" ++
        legendComments [Value.obj [
          ("formattedName", Value.str "F"), ("name", Value.str "N"),
          ("values", Value.arr [Value.arr [Value.num 0, Value.num 1]])]] 0 ++
        "#\n" ++
        ("DateTime," ++ String.intercalate "," (seriesColumnNames 1) ++ "\n") ++
        "1970-01-01T00:00:00.000Z,1\n") := by
  obtain ⟨rows, hrows⟩ := c2_amended
    (Value.obj [("series", Value.arr [Value.obj [
        ("formattedName", Value.str "F"), ("name", Value.str "N"),
        ("values", Value.arr [Value.arr [Value.num 0, Value.num 1]])]])])
    [Value.obj [
        ("formattedName", Value.str "F"), ("name", Value.str "N"),
        ("values", Value.arr [Value.arr [Value.num 0, Value.num 1]])]]
    rfl (by simp) (by decide) (by decide)
  simp only [List.length_singleton] at hrows
  have h1 := Option.some.inj (hrows.symm.trans (show
    Main.exportTimeSeriesData (Value.obj [("series", Value.arr [Value.obj [
        ("formattedName", Value.str "F"), ("name", Value.str "N"),
        ("values", Value.arr [Value.arr [Value.num 0, Value.num 1]])]])]) =
      some ("# Legend Information:\n" ++
        legendComments [Value.obj [
          ("formattedName", Value.str "F"), ("name", Value.str "N"),
          ("values", Value.arr [Value.arr [Value.num 0, Value.num 1]])]] 0 ++
        "#\n" ++
        ("DateTime," ++ String.intercalate "," (seriesColumnNames 1) ++ "\n") ++
        "1970-01-01T00:00:00.000Z,1\n") from rfl))
  rw [hrows, string_append_left_cancel h1]

/-- Whether one `values` entry is silently skipped by the enhanced
serializer: not an array, fewer than two elements, or a timestamp that is
neither a number nor a string. -/
def entrySkippedB (e : Value) : Bool :=
  match e with
  | .arr es =>
      decide (es.length < 2) || (convertTimestamp (es.getD 0 .undefined) == .skipped)
  | _ => true

/-- Claim C10 (counterexample): the enhanced `exportTimeSeriesData` is not
total — a string timestamp that does not parse as a date (`new Date("")`)
makes `toISOString` throw, and the exception escapes the serializer
(modelled by `none`). -/
theorem c10_counterexample :
    Main.exportTimeSeriesData (Value.obj [("series", Value.arr [Value.obj [
        ("name", Value.str "A"),
        ("values", Value.arr [Value.arr [Value.str "", Value.num 1]])]])]) =
      none := rfl

/-- Claim C10 (amended): entries that are not arrays, have fewer than two
elements, or carry a timestamp that is neither a number nor a string are
silently skipped and contribute nothing; a series that is falsy or whose
`values` is not an array is skipped entirely; taken together a payload of
such garbage exports exactly its valid cells.  The serializer is however
not total: an unparseable string timestamp or an out-of-range numeric
timestamp throws. -/
theorem c10_amended :
    (∀ (cn : String) (e : Value) (rest : List Value) (r : ResultMap),
      entrySkippedB e = true →
      Main.processEntries cn (e :: rest) r = Main.processEntries cn rest r) ∧
    (∀ (s : Value) (rest : List Value) (i : Nat) (infos : List SeriesInfo)
        (r : ResultMap),
      (truthy s = false ∨ (s.getD "values").isArr = false) →
      Main.processSeries (s :: rest) i infos r = Main.processSeries rest (i + 1) infos r) ∧
    Main.exportTimeSeriesData (Value.obj [("series", Value.arr [
      Value.obj [("name", Value.str "A"), ("values", Value.arr [
        Value.num 5, Value.arr [], Value.arr [Value.num 0, Value.num 1],
        Value.arr [Value.null, Value.num 9], Value.obj []])],
      Value.num 7,
      Value.obj [("name", Value.str "B")]])]) =
      some ("# Legend Information:\n# Series_1: A\n#\n" ++
        "DateTime,Series_1\n1970-01-01T00:00:00.000Z,1\n") ∧
    Main.exportTimeSeriesData (Value.obj [("series", Value.arr [Value.obj [
        ("name", Value.str "A"),
        ("values", Value.arr [Value.arr [Value.num 9000000000000000000,
          Value.num 1]])]])]) = none := by
  refine ⟨?_, ?_, rfl, rfl⟩
  · intro cn e rest r h
    cases e with
    | arr es =>
        simp only [entrySkippedB, Bool.or_eq_true, decide_eq_true_eq,
          beq_iff_eq] at h
        simp only [Main.processEntries]
        by_cases hlen : es.length < 2
        · rw [if_pos hlen]
        · rw [if_neg hlen]
          rcases h with h | h
          · exact absurd h hlen
          · rw [h]
    | null => rfl
    | undefined => rfl
    | bool b => rfl
    | num n => rfl
    | str s => rfl
    | obj fs => rfl
  · intro s rest i infos r h
    rcases h with h | h <;> simp [Main.processSeries, h]

theorem c10_witness :
    Main.processEntries "Series_1" [Value.num 5] [] =
      Main.processEntries "Series_1" [] [] :=
  c10_amended.1 "Series_1" (Value.num 5) [] [] (by decide)

/-- Claim C5 (counterexample): the enhanced `exportTableData` escapes only
string cells containing a comma — a cell containing a double quote (and no
comma) is emitted raw and unquoted, and a cell containing a newline splits
the emitted document across lines, so a standard CSV parser cannot
reconstruct it. -/
theorem c5_counterexample :
    Main.tableCell (Value.obj [("c", Value.str "say \"hi\"")])
      (Value.obj [("name", Value.str "c")]) = some "say \"hi\"" ∧
    strContains "say \"hi\"" '"' = true ∧
    "say \"hi\"" ≠ quoteWrap "say \"hi\"" ∧
    Main.exportTableData (Value.obj [
      ("columns", Value.arr [Value.obj [("name", Value.str "c")]]),
      ("rows", Value.arr [Value.obj [("c", Value.str "a\nb")]])]) =
      some "# Column Information:\n# c: c\n#\nc\na\nb\n" ∧
    "a\nb" ∉ csvLines "# Column Information:\n# c: c\n#\nc\na\nb\n" := by
  refine ⟨rfl, by decide, by decide, rfl, by decide⟩

/-- Claim C5 (amended): in the stashed `exportTableData` and in
`exportGenericData` (both row cells and `Property,Value` cells), every
string cell containing a comma, double quote or newline is emitted wrapped
in double quotes with internal quotes doubled, and a standard CSV reader
reconstructs the original exactly; the enhanced `exportTableData`, by
contrast, escapes only cells containing a comma, emitting quote- or
newline-only cells raw. -/
theorem c5_amended (s : String) (h : needsCsvQuote s = true) :
    Stashed.tableCell (Value.str s) = quoteWrap s ∧
    csvUnescapeCell (Stashed.tableCell (Value.str s)) = s ∧
    Stashed.genericCell (Value.str s) = quoteWrap s ∧
    Stashed.genericPVCell (Value.str s) = quoteWrap s ∧
    (strContains s ',' = false →
      Main.tableCell (Value.obj [("c", Value.str s)])
        (Value.obj [("name", Value.str "c")]) = some s) := by
  have hcell : Stashed.tableCell (Value.str s) = quoteWrap s := by
    simp [Stashed.tableCell, escapeCellJs, displayString, Value.isNullish, h]
  refine ⟨hcell, ?_, ?_, ?_, ?_⟩
  · rw [hcell]
    exact csvUnescapeCell_quoteWrap s
  · simp [Stashed.genericCell, escapeCellJs, displayString, Value.isNullish, h]
  · simp [Stashed.genericPVCell, escapeCellJs, displayString, Value.isNullish, h]
  · intro h2
    simp [Main.tableCell, Value.isNullish, jsPropKey, Value.getD, Value.getE,
      displayString, h2]

theorem c5_witness :
    needsCsvQuote "a\"b" = true ∧
    Stashed.tableCell (Value.str "a\"b") = quoteWrap "a\"b" ∧
    csvUnescapeCell (Stashed.tableCell (Value.str "a\"b")) = "a\"b" := by
  refine ⟨by decide, ?_, ?_⟩
  · exact (c5_amended "a\"b" (by decide)).1
  · exact (c5_amended "a\"b" (by decide)).2.1

theorem detect_timeseries_series {d : Value} (h : detectDataType d = some .timeseries) :
    ∃ s rest, d.getD "series" = .arr (s :: rest) := by
  simp only [detectDataType] at h
  split at h
  · simp at h
  · split at h
    · split at h
      · rename_i first tail heq
        exact ⟨first, tail, heq⟩
      · exact absurd (Option.some.inj h) (detectAfterTs_ne_timeseries d)
    · exact absurd (Option.some.inj h) (detectAfterTs_ne_timeseries d)

theorem detect_eq_afterTs {d : Value} {t : DataType} (h : detectDataType d = some t)
    (hne : t ≠ .timeseries) (ht : truthy d = true) : detectAfterTs d = t := by
  simp only [detectDataType] at h
  split at h
  · rename_i hfalse
    simp [ht] at hfalse
  · split at h
    · split at h
      · rename_i first tail heq
        cases hE : (Value.getE first "values") with
        | none => rw [hE] at h; simp at h
        | some v =>
            rw [hE] at h
            simp only [Option.map_some'] at h
            have h2 := Option.some.inj h
            split at h2
            · exact absurd h2.symm hne
            · exact h2
      · exact Option.some.inj h
    · exact Option.some.inj h

theorem afterTs_table {d : Value} (h : detectAfterTs d = .table) :
    (truthy (d.getD "columns") && (d.getD "columns").isArr &&
     truthy (d.getD "rows") && (d.getD "rows").isArr) = true := by
  by_cases hc : (truthy (d.getD "columns") && (d.getD "columns").isArr &&
      truthy (d.getD "rows") && (d.getD "rows").isArr) = true
  · exact hc
  · unfold detectAfterTs at h
    rw [if_neg hc] at h
    split at h
    · split at h
      · split at h
        · simp at h
        · simp at h
      · simp at h
    · simp at h

theorem afterTs_barchart {d : Value} (h : detectAfterTs d = .barchart) :
    (truthy (d.getD "categories") && (d.getD "categories").isArr &&
     truthy (d.getD "series") && (d.getD "series").isArr) = true := by
  unfold detectAfterTs at h
  split at h
  · simp at h
  · split at h
    · rename_i hcond
      exact hcond
    · simp at h

theorem arr_of_isArr {v : Value} (h : v.isArr = true) : ∃ xs, v = Value.arr xs := by
  cases v with
  | arr xs => exact ⟨xs, rfl⟩
  | null => simp [Value.isArr] at h
  | undefined => simp [Value.isArr] at h
  | bool b => simp [Value.isArr] at h
  | num n => simp [Value.isArr] at h
  | str s => simp [Value.isArr] at h
  | obj fs => simp [Value.isArr] at h

theorem not_nullish_of_truthy {v : Value} (h : truthy v = true) : v.isNullish = false := by
  cases v with
  | null => simp [truthy] at h
  | undefined => simp [truthy] at h
  | bool b => rfl
  | num n => rfl
  | str s => rfl
  | arr xs => rfl
  | obj fs => rfl

theorem truthy_of_detect {d : Value} {t : DataType} (h : detectDataType d = some t)
    (hne : t ≠ .unknown) : truthy d = true := by
  by_cases ht : truthy d
  · exact ht
  · exfalso
    simp only [detectDataType] at h
    rw [if_pos (by simp [ht])] at h
    exact hne (Option.some.inj h).symm

theorem export_ts_ne_empty {d : Value} (h : detectDataType d = some .timeseries) :
    Main.exportTimeSeriesData d ≠ some "" := by
  obtain ⟨s, rest, hser⟩ := detect_timeseries_series h
  obtain ⟨fields, rfl⟩ := obj_of_getD_arr hser (by decide) (by decide)
  have h0 : (Value.obj fields).isNullish = false := rfl
  intro hc
  simp only [Main.exportTimeSeriesData, getE_of_not_nullish h0, hser] at hc
  rw [if_neg (by simp [truthy, Value.isArr, Value.arrLen])] at hc
  cases hstage : Main.tsStage (Value.obj fields) with
  | none => rw [hstage] at hc; simp at hc
  | some p =>
      obtain ⟨infos, result⟩ := p
      rw [hstage] at hc
      have h2 := Option.some.inj hc
      simp only [String.append_assoc] at h2
      exact prefixed_ne_empty "# Legend Information:\n" _ (by decide) h2

theorem export_table_ne_empty {d : Value} (h : detectDataType d = some .table) :
    Main.exportTableData d ≠ some "" := by
  have ht : truthy d = true := truthy_of_detect h (by simp)
  have hcond := afterTs_table (detect_eq_afterTs h (by simp) ht)
  have hrowsA : (d.getD "rows").isArr = true := Bool.and_elim_right hcond
  have hl := Bool.and_elim_left hcond
  have hrows_t : truthy (d.getD "rows") = true := Bool.and_elim_right hl
  have hl2 := Bool.and_elim_left hl
  have hcolsA : (d.getD "columns").isArr = true := Bool.and_elim_right hl2
  have hcols_t : truthy (d.getD "columns") = true := Bool.and_elim_left hl2
  obtain ⟨ca, hca⟩ := arr_of_isArr hcolsA
  obtain ⟨ra, hra⟩ := arr_of_isArr hrowsA
  have hdnn : d.isNullish = false := not_nullish_of_truthy ht
  intro hc
  simp only [Main.exportTableData, getE_of_not_nullish hdnn, hca, hra,
    Option.bind_eq_bind, Option.some_bind, Option.pure_def] at hc
  rw [if_neg (by simp [truthy])] at hc
  simp only [jsIterate, Value.asArrE, Option.bind_eq_bind, Option.some_bind,
    Option.pure_def] at hc
  simp only [Option.bind_eq_some] at hc
  obtain ⟨comments, hm1, hc⟩ := hc
  obtain ⟨rowLines, hm2, hc⟩ := hc
  have h2 := Option.some.inj hc
  simp only [String.append_assoc] at h2
  exact prefixed_ne_empty "# Column Information:\n" _ (by decide) h2

theorem export_barchart_ne_empty {d : Value} (h : detectDataType d = some .barchart) :
    Main.exportBarChartData d ≠ some "" := by
  have ht : truthy d = true := truthy_of_detect h (by simp)
  have hcond := afterTs_barchart (detect_eq_afterTs h (by simp) ht)
  have hserA : (d.getD "series").isArr = true := Bool.and_elim_right hcond
  have hl := Bool.and_elim_left hcond
  have hser_t : truthy (d.getD "series") = true := Bool.and_elim_right hl
  have hl2 := Bool.and_elim_left hl
  have hcatsA : (d.getD "categories").isArr = true := Bool.and_elim_right hl2
  have hcats_t : truthy (d.getD "categories") = true := Bool.and_elim_left hl2
  obtain ⟨cs, hcs⟩ := arr_of_isArr hcatsA
  obtain ⟨ss, hss⟩ := arr_of_isArr hserA
  have hdnn : d.isNullish = false := not_nullish_of_truthy ht
  intro hc
  simp only [Main.exportBarChartData, getE_of_not_nullish hdnn, hcs, hss,
    Option.bind_eq_bind, Option.some_bind, Option.pure_def] at hc
  rw [if_neg (by simp [truthy])] at hc
  simp only [Value.asArrE, Option.bind_eq_bind, Option.some_bind,
    Option.pure_def] at hc
  simp only [Option.bind_eq_some] at hc
  obtain ⟨rowLines, hm1, hc⟩ := hc
  have h2 := Option.some.inj hc
  simp only [String.append_assoc] at h2
  exact prefixed_ne_empty "# Axis Information:\n" _ (by decide) h2

/-- Claim C3 (counterexample): a table payload with an empty `rows` array
does NOT serialize to the empty string — the enhanced `exportTableData`
still emits its comment and header lines — and `hasExportableData` is true
on it. -/
theorem c3_counterexample :
    Main.exportTableData (Value.obj [
      ("columns", Value.arr [Value.obj [("name", Value.str "ns")]]),
      ("rows", Value.arr [])]) = some "# Column Information:\n# ns: ns\n#\nns\n" ∧
    ("# Column Information:\n# ns: ns\n#\nns\n" ≠ "") ∧
    hasExportableData (Value.obj [
      ("columns", Value.arr [Value.obj [("name", Value.str "ns")]]),
      ("rows", Value.arr [])]) = some true := by
  refine ⟨rfl, by decide, rfl⟩

/-- Claim C3 (amended): `hasExportableData` is false exactly when
`detectDataType` returns `'unknown'`, and the export button renders exactly
when `hasExportableData` holds; whenever a shape is detected, the matching
serializer never returns the empty string (the serializers return `""` only
when a required field is falsy); in particular a table payload with an
empty `rows` array serializes to its non-empty comment and header lines,
not to `""`. -/
theorem c3_amended :
    (∀ d b, hasExportableData d = some b → (b = false ↔ detectDataType d = some .unknown)) ∧
    (∀ d, csvExportButtonRendered d = hasExportableData d) ∧
    (∀ d, detectDataType d = some .timeseries → Main.exportTimeSeriesData d ≠ some "") ∧
    (∀ d, detectDataType d = some .table → Main.exportTableData d ≠ some "") ∧
    (∀ d, detectDataType d = some .barchart → Main.exportBarChartData d ≠ some "") ∧
    Main.exportTableData (Value.obj [
      ("columns", Value.arr [Value.obj [("name", Value.str "ns")]]),
      ("rows", Value.arr [])]) = some "# Column Information:\n# ns: ns\n#\nns\n" := by
  refine ⟨?_, fun d => rfl, fun d => export_ts_ne_empty, fun d => export_table_ne_empty,
    fun d => export_barchart_ne_empty, rfl⟩
  intro d b hb
  unfold hasExportableData at hb
  cases hd : detectDataType d with
  | none => rw [hd] at hb; simp at hb
  | some t =>
      rw [hd] at hb
      simp only [Option.map_some'] at hb
      have hb2 := Option.some.inj hb
      subst hb2
      cases t <;> simp

theorem c3_witness :
    (false = false ↔ detectDataType Value.null = some DataType.unknown) ∧
    Main.exportTableData (Value.obj [
      ("columns", Value.arr [Value.obj [("name", Value.str "ns")]]),
      ("rows", Value.arr [])]) ≠ some "" :=
  ⟨c3_amended.1 Value.null false rfl, c3_amended.2.2.2.1 _ rfl⟩

/-- Claim C4 (counterexample): when the shape serializer returns the empty
string, the enhanced `createCsvExportHandler` does NOT no-op — it downloads
a file consisting of the comment header lines; and a serializer exception
escapes it (no `try`/`catch`). -/
theorem c4_counterexample :
    Main.exportTableData (Value.obj [("foo", Value.num 1)]) = some "" ∧
    Main.createCsvExportHandler "T" (Value.obj [("foo", Value.num 1)])
      (some .table) "E" =
      .download "T_table_data.csv" "# Chart: T\n# Data Type: table\n# Exported: E\n" ∧
    Main.createCsvExportHandler "T" (Value.obj [("series", Value.arr [Value.obj [
        ("name", Value.str "A"),
        ("values", Value.arr [Value.arr [Value.str "", Value.num 1]])]])]) none "E" =
      .thrown :=
  ⟨rfl, rfl, rfl⟩

/-- Claim C4 (amended): the stashed `csvExportHandler` satisfies the claim —
it never lets an exception escape (everything runs inside `try`/`catch`) and
it downloads a file only when the serialized text is non-empty, silently
no-opping otherwise; the enhanced `createCsvExportHandler` instead prepends
comment headers and downloads a file even when the shape serializer returns
`""`, and serializer exceptions escape it. -/
theorem c4_amended :
    (∀ (title : String) (q : Value) (pt : String),
      Stashed.csvExportHandler title q pt ≠ .thrown) ∧
    (∀ (title : String) (q : Value) (pt n c : String),
      Stashed.csvExportHandler title q pt = .download n c → c ≠ "") ∧
    Main.createCsvExportHandler "T" (Value.obj [("foo", Value.num 1)])
      (some .table) "E" =
      .download "T_table_data.csv" "# Chart: T\n# Data Type: table\n# Exported: E\n" ∧
    Main.createCsvExportHandler "T" (Value.obj [("series", Value.arr [Value.obj [
        ("name", Value.str "A"),
        ("values", Value.arr [Value.arr [Value.str "", Value.num 1]])]])]) none "E" =
      .thrown := by
  refine ⟨?_, ?_, rfl, rfl⟩
  · intro title q pt
    simp only [Stashed.csvExportHandler]
    split
    · simp
    · split
      · simp
      · split
        · simp
        · simp
  · intro title q pt n c h
    simp only [Stashed.csvExportHandler] at h
    split at h
    · simp at h
    · split at h
      · simp at h
      · split at h
        · simp at h
        · rename_i hne
          injection h with h1 h2
          subst h2
          simpa using hne

theorem c4_witness :
    Stashed.csvExportHandler "T" (Value.obj [
      ("columns", Value.arr [Value.str "a"]),
      ("rows", Value.arr [Value.arr [Value.num 1]])]) "table" ≠ .thrown ∧
    ("a\n1\n" ≠ "") := by
  refine ⟨c4_amended.1 "T" _ "table", ?_⟩
  exact c4_amended.2.1 "T" (Value.obj [
      ("columns", Value.arr [Value.str "a"]),
      ("rows", Value.arr [Value.arr [Value.num 1]])]) "table" "T_tableData.csv"
    "a\n1\n" rfl
